import Mathlib

/-!
# RayCasting: the recursive light-transport integrator of `Geometry/Scene.h`

A shallow embedding of `Geometry::Scene` (`src/RayCasting/Geometry/Scene.h`) and of
`Geometry::Material` (`src/RayCasting/Geometry/Material.h`).

Modelling conventions.

* `float` is idealised as exact rational arithmetic (`ℚ`): rounding is not modelled.
  `std::numeric_limits<float>::max()` keeps its value (`FLT_MAX`).
* The factor `1.0f / maxRays` that ends both estimators is the float `+inf` at
  `maxRays = 0`, and the product of a colour by it is an infinity or NaN: the model stops
  there with `Fault.notFinite`.  The divisions by the distance of a hit, inside the loops,
  are the divisions of `ℚ`.
* `int` is the unbounded `Int`; signed overflow is undefined behaviour in C++ and is not
  reached on the ranges the theorems speak about.
* Indexing a `std::deque`/`std::vector` out of range and dereferencing a null pointer are
  undefined behaviour in C++; the model reports them as `Run.fault`.
* Recursion is driven by fuel: one unit of fuel is one nested activation of `sendRay`, and
  `Run.outOfFuel` is a chain of nested `sendRay` calls longer than the fuel.
* The classes of the repository that are not in `src/` (`Triangle`, `Ray`, `Camera`,
  `RandomDirection`, ...) are taken as parameters, bundled in `Env`; the record
  `RayTriangleIntersection` and the rendering target `Visualizer` are modelled from the
  specification.
* The process-wide random generator behind `Math::RandomDirection::generate` is a seed that
  is threaded through every call, next to the `Scene` object (`World`).
* The operands of `operator+` in the last `return` of `sendRay` are evaluated left to right.
* `#pragma omp parallel for` is ignored: the pixel loop of `compute` is run sequentially;
  the timer and the console output of `compute` are left out.
* The legacy point-light functions (`diffuseColor`, `specular_directColor`,
  `specular_indirectColor`, `shadow`) are never called from `sendRay` and are not embedded.
-/

namespace RayCasting

/-! ## Values -/

/-- Math::Vector3 (header not in the sources): three `float` coordinates. -/
structure Vector3 where
  x : ℚ
  y : ℚ
  z : ℚ
deriving DecidableEq

/-- Vector sum, `operator+` of Math::Vector3. -/
def Vector3.add (a b : Vector3) : Vector3 := ⟨a.x + b.x, a.y + b.y, a.z + b.z⟩

/-- Product by a scalar, `operator*(float)` of Math::Vector3. -/
def Vector3.scale (a : Vector3) (k : ℚ) : Vector3 := ⟨a.x * k, a.y * k, a.z * k⟩

/-- Unary minus of Math::Vector3. -/
def Vector3.neg (a : Vector3) : Vector3 := ⟨-a.x, -a.y, -a.z⟩

/-- Scalar product, `operator*(Vector3)` of Math::Vector3. -/
def Vector3.dot (a b : Vector3) : ℚ := a.x * b.x + a.y * b.y + a.z * b.z

/-- Geometry::RGBColor (header not in the sources): three `float` channels, no clamping. -/
structure RGBColor where
  r : ℚ
  g : ℚ
  b : ℚ
deriving DecidableEq

/-- The colour `RGBColor()`, also what `RGBColor x = (0, 0, 0);` and the comparison
`Kd != 0` build from the `int` 0. -/
def RGBColor.black : RGBColor := ⟨0, 0, 0⟩

/-- Channel-wise sum, `RGBColor + RGBColor`. -/
def RGBColor.add (a c : RGBColor) : RGBColor := ⟨a.r + c.r, a.g + c.g, a.b + c.b⟩

/-- Channel-wise product, `RGBColor * RGBColor`. -/
def RGBColor.mul (a c : RGBColor) : RGBColor := ⟨a.r * c.r, a.g * c.g, a.b * c.b⟩

/-- Product by a scalar, `RGBColor * float` and `RGBColor * int`. -/
def RGBColor.scale (a : RGBColor) (k : ℚ) : RGBColor := ⟨a.r * k, a.g * k, a.b * k⟩

/-- Quotient by a scalar, `RGBColor / float` and `RGBColor / int`. -/
def RGBColor.div (a : RGBColor) (k : ℚ) : RGBColor := ⟨a.r / k, a.g / k, a.b / k⟩

/-- Every channel of the colour is non-negative. -/
def RGBColor.NonNeg (a : RGBColor) : Prop := 0 ≤ a.r ∧ 0 ≤ a.g ∧ 0 ≤ a.b

instance : Zero RGBColor := ⟨RGBColor.black⟩

instance : Add RGBColor := ⟨RGBColor.add⟩

/-- Colours under the channel-wise sum, with `RGBColor()` as the neutral element. -/
instance : AddCommMonoid RGBColor where
  nsmul := fun n a => a.scale n
  add_assoc := fun a c e => by
    show RGBColor.add (RGBColor.add a c) e = RGBColor.add a (RGBColor.add c e)
    simp only [RGBColor.add, add_assoc]
  zero_add := fun a => by
    show RGBColor.add RGBColor.black a = a
    simp only [RGBColor.add, RGBColor.black, zero_add]
  add_zero := fun a => by
    show RGBColor.add a RGBColor.black = a
    simp only [RGBColor.add, RGBColor.black, add_zero]
  add_comm := fun a c => by
    show RGBColor.add a c = RGBColor.add c a
    simp only [RGBColor.add, add_comm]
  nsmul_zero := fun a => by
    show a.scale ((0 : Nat) : ℚ) = RGBColor.black
    simp [RGBColor.scale, RGBColor.black]
  nsmul_succ := fun n a => by
    show a.scale ((n + 1 : Nat) : ℚ) = RGBColor.add (a.scale (n : ℚ)) a
    simp [RGBColor.scale, RGBColor.add, mul_add]

/-- Geometry::Ray (header not in the sources): a source point and a direction. -/
structure Ray where
  source : Vector3
  direction : Vector3
deriving DecidableEq

/-- Geometry::Material, the fields of `Material.h` in declaration order. -/
structure Material where
  m_ambientColor : RGBColor
  m_diffuseColor : RGBColor
  m_specularColor : RGBColor
  m_specularExponent : ℚ
  m_refractionIndex : ℚ
  m_emissiveColor : RGBColor
deriving DecidableEq

/-- Material::diffuseColor. -/
def Material.diffuseColor (m : Material) : RGBColor := m.m_diffuseColor

/-- Material::specularColor. -/
def Material.specularColor (m : Material) : RGBColor := m.m_specularColor

/-- Material::specularExponent. -/
def Material.specularExponent (m : Material) : ℚ := m.m_specularExponent

/-- Material::refractionIndex. -/
def Material.refractionIndex (m : Material) : ℚ := m.m_refractionIndex

/-- Material::emissiveColor. -/
def Material.emissiveColor (m : Material) : RGBColor := m.m_emissiveColor

/-- Geometry::Triangle (header not in the sources): three vertices and the material the
triangle refers to. -/
structure Triangle where
  vertex0 : Vector3
  vertex1 : Vector3
  vertex2 : Vector3
  material : Material
deriving DecidableEq

/-- Geometry::BoundingBox (header not in the sources): the two extreme corners. -/
structure BoundingBox where
  min : Vector3
  max : Vector3
deriving DecidableEq

/-- Geometry::Geometry (header not in the sources): the triangles behind `getTriangles()`. -/
structure Geometry where
  getTriangles : List Triangle
deriving DecidableEq

/-- Geometry::PointLight (header not in the sources). -/
structure PointLight where
  position : Vector3
  color : RGBColor
deriving DecidableEq

/-- Geometry::Camera (header not in the sources), the five arguments `main` constructs it
from. -/
structure Camera where
  position : Vector3
  target : Vector3
  planeDistance : ℚ
  planeWidth : ℚ
  planeHeight : ℚ
deriving DecidableEq

/-- The members of the absent classes that `Scene.h` calls, as parameters.

* `intersection tri ray` is `tri.intersection(ray, t, u, v)`: the returned `bool` and the
  value left in `t`;
* `normal`, `reflectionDirection`, `refractionDirection` are the members of `Triangle`;
* `generate dir n seed` is `RandomDirection(dir, n).generate()` (`n = none` for the
  one-argument constructor) run on the random state `seed`, with the state it leaves;
* `mkRay source direction` is the constructor `Ray(source, direction)`;
* `getRay cam u v` is `Camera::getRay`. -/
structure Env where
  intersection : Triangle → Ray → Bool × ℚ
  normal : Triangle → Vector3
  reflectionDirection : Triangle → Ray → Vector3
  refractionDirection : Triangle → Ray → Vector3
  generate : Vector3 → Option ℚ → Nat → Vector3 × Nat
  mkRay : Vector3 → Vector3 → Ray
  getRay : Camera → ℚ → ℚ → Ray

/-! ## Outcomes of a run -/

/-- What stops a run without a value: the two kinds of undefined behaviour the model tracks,
and a `float` result that is an infinity or NaN, which no rational number stands for. -/
inductive Fault where
  | outOfBounds
  | nullPointer
  | notFinite
deriving DecidableEq

/-- Outcome of running a piece of the program: a value, a fault, or an exhausted fuel. -/
inductive Run (α : Type) where
  | ok (a : α)
  | fault (f : Fault)
  | outOfFuel
deriving DecidableEq

/-- Sequencing: the second computation runs only when the first one returned a value. -/
def Run.bind {α β : Type} (m : Run α) (k : α → Run β) : Run β :=
  match m with
  | Run.ok a => k a
  | Run.fault f => Run.fault f
  | Run.outOfFuel => Run.outOfFuel

/-- The run came back with a value or with a fault: it did not exhaust the fuel. -/
def Run.Terminates {α : Type} (m : Run α) : Prop := m ≠ Run.outOfFuel

/-! ## The scene -/

/-- The data members of Geometry::Scene, except the pointer `m_visu` to the rendering
target, which lives in `RenderState`. -/
structure Scene where
  count : Int
  m_geometries : List (BoundingBox × Geometry)
  m_lights : List PointLight
  m_camera : Camera
deriving DecidableEq

/-- What a call of a member function of `Scene` can read and write: the `Scene` object and
the state of the process-wide random generator. -/
structure World where
  scene : Scene
  seed : Nat
deriving DecidableEq

/-- A `const Triangle *`: null, or the address of the triangle `target` stored at
`m_geometries[index_g].second.getTriangles()[index_t]`. -/
inductive TrianglePtr where
  | null
  | elem (index_g index_t : Nat) (target : Triangle)
deriving DecidableEq

/-- Dereferencing, `ptr->`. -/
def TrianglePtr.deref : TrianglePtr → Run Triangle
  | TrianglePtr.null => Run.fault Fault.nullPointer
  | TrianglePtr.elem _ _ tri => Run.ok tri

/-- Modelled from the spec: Geometry::RayTriangleIntersection (header not in the sources),
the spec's SurfaceRecord: the reference to the hit triangle (possibly null), the
originating ray and the hit distance along the ray. -/
structure RayTriangleIntersection where
  triangle : TrianglePtr
  ray : Ray
  tRayValue : ℚ
deriving DecidableEq

/-- Modelled from the spec: the constructor `RayTriangleIntersection(&triangle, &ray)`; the
hit distance is the one the intersection test of the triangle reports for the ray. -/
def RayTriangleIntersection.ofTriangle (env : Env) (g j : Nat) (tri : Triangle) (ray : Ray) :
    RayTriangleIntersection :=
  ⟨TrianglePtr.elem g j tri, ray, (env.intersection tri ray).2⟩

/-- Modelled from the spec: RayTriangleIntersection::intersection, the intersection point
derived from the ray and the distance. -/
def RayTriangleIntersection.intersection (h : RayTriangleIntersection) : Vector3 :=
  h.ray.source.add (h.ray.direction.scale h.tRayValue)

/-- The value of `std::numeric_limits<float>::max()`. -/
def FLT_MAX : ℚ := 340282346638528859811704183484516925440

/-- The local variables of `rayIntersection` that the two loops update. -/
structure ScanState where
  index_g : Nat
  index_t : Nat
  profondeur_min : ℚ
deriving DecidableEq

/-- The body of the inner loop of `rayIntersection` for triangle `j` of geometry `i`. -/
def scanStep (env : Env) (ray : Ray) (i j : Nat) (tri : Triangle) (st : ScanState) : ScanState :=
  if (env.intersection tri ray).1 = true then
    if (env.intersection tri ray).2 < st.profondeur_min then
      ⟨i, j, (env.intersection tri ray).2⟩
    else st
  else st

/-- The inner loop of `rayIntersection`, from triangle index `j` on. -/
def scanTriangles (env : Env) (ray : Ray) (i : Nat) : List Triangle → Nat → ScanState → ScanState
  | [], _, st => st
  | tri :: rest, j, st => scanTriangles env ray i rest (j + 1) (scanStep env ray i j tri st)

/-- The outer loop of `rayIntersection`, from geometry index `i` on. -/
def scanGeometries (env : Env) (ray : Ray) :
    List (BoundingBox × Geometry) → Nat → ScanState → ScanState
  | [], _, st => st
  | geo :: rest, i, st =>
      scanGeometries env ray rest (i + 1) (scanTriangles env ray i geo.2.getTriangles 0 st)

/-- The element access `m_geometries[g].second.getTriangles()[j]`. -/
def Scene.triangleAt (s : Scene) (g j : Nat) : Option Triangle :=
  match s.m_geometries[g]? with
  | none => none
  | some geo => geo.2.getTriangles[j]?

/-- Scene::rayIntersection. -/
def rayIntersection (env : Env) (s : Scene) (ray : Ray) : Run RayTriangleIntersection :=
  let st := scanGeometries env ray s.m_geometries 0 ⟨0, 0, FLT_MAX⟩
  match s.triangleAt st.index_g st.index_t with
  | none => Run.fault Fault.outOfBounds
  | some tri => Run.ok (RayTriangleIntersection.ofTriangle env st.index_g st.index_t tri ray)

/-- Scene::emissiveColor. -/
def emissiveColor (triangle_intersecte : RayTriangleIntersection) : Run RGBColor :=
  triangle_intersecte.triangle.deref.bind fun tri => Run.ok tri.material.emissiveColor

/-- The type of `sendRay` once the scene is fixed: ray, depth, maxDepth, and the world the
call starts from. -/
abbrev Sender := Ray → Int → Int → World → Run (RGBColor × World)

/-- The loop of `global_diffuseColor`, with `n` iterations left and the running value of
`global_diffus`. -/
def diffuseLoop (env : Env) (send : Sender) (triangle_intersecte : RayTriangleIntersection)
    (Kd : RGBColor) (d : ℚ) (surfaceLight : RGBColor) (N : Vector3) (depth maxDepth : Int) :
    Nat → RGBColor → World → Run (RGBColor × World)
  | 0, global_diffus, w => Run.ok (global_diffus, w)
  | n + 1, global_diffus, w =>
      let sample := env.generate N none w.seed
      let diffuseRay := env.mkRay triangle_intersecte.intersection sample.1
      (send diffuseRay (depth + 1) maxDepth ⟨w.scene, sample.2⟩).bind fun res =>
        diffuseLoop env send triangle_intersecte Kd d surfaceLight N depth maxDepth n
          ((global_diffus.add (((Kd.scale 1).mul res.1).div d)).add surfaceLight) res.2

/-- The product `colour * (1.0f / maxRays)` that ends both estimators.  At `maxRays = 0` the
factor is the float `+inf` and every channel of the product is an infinity or, where the
channel is `0` (as it is when the loop has not run), NaN: the run stops with `notFinite`. -/
def scaleByInverse (colour : RGBColor) (maxRays : Int) : Run RGBColor :=
  if maxRays = 0 then Run.fault Fault.notFinite
  else Run.ok (colour.scale (1 / (maxRays : ℚ)))

/-- Scene::global_diffuseColor; `send` is the `sendRay` it calls back. -/
def global_diffuseColor (env : Env) (send : Sender)
    (triangle_intersecte : RayTriangleIntersection) (maxRays : Int) (depth maxDepth : Int)
    (w : World) : Run (RGBColor × World) :=
  triangle_intersecte.triangle.deref.bind fun tri =>
    let global_diffus := RGBColor.black
    let Kd := tri.material.diffuseColor
    let d := triangle_intersecte.tRayValue
    (emissiveColor triangle_intersecte).bind fun surfaceLight =>
      let N := env.normal tri
      let N := if (triangle_intersecte.ray.direction.neg).dot N < 0 then N.scale (-1) else N
      if Kd ≠ RGBColor.black then
        (diffuseLoop env send triangle_intersecte Kd d surfaceLight N depth maxDepth
            maxRays.toNat global_diffus w).bind fun res =>
          (scaleByInverse res.1 maxRays).bind fun average =>
            Run.ok (average,
              ⟨{ res.2.scene with count := res.2.scene.count + 1 }, res.2.seed⟩)
      else
        (scaleByInverse global_diffus maxRays).bind fun average => Run.ok (average, w)

/-- The loop of `global_specular_indirectColor`, with `n` iterations left and the running
value of `specular_indirectColor`. -/
def specularLoop (env : Env) (send : Sender) (triangle_intersecte : RayTriangleIntersection)
    (Ks : RGBColor) (d : ℚ) (surfaceLight : RGBColor) (R : Vector3) (sh : ℚ)
    (depth maxDepth : Int) : Nat → RGBColor → World → Run (RGBColor × World)
  | 0, specular_indirectColor, w => Run.ok (specular_indirectColor, w)
  | n + 1, specular_indirectColor, w =>
      let sample := env.generate R (some sh) w.seed
      let specularRay := env.mkRay triangle_intersecte.intersection sample.1
      (send specularRay (depth + 1) maxDepth ⟨w.scene, sample.2⟩).bind fun res =>
        specularLoop env send triangle_intersecte Ks d surfaceLight R sh depth maxDepth n
          ((specular_indirectColor.add ((Ks.mul res.1).div d)).add surfaceLight) res.2

/-- Scene::global_specular_indirectColor; `send` is the `sendRay` it calls back.  The
specular exponent is read into an `int`, which truncates it toward zero. -/
def global_specular_indirectColor (env : Env) (send : Sender)
    (triangle_intersecte : RayTriangleIntersection) (maxRays : Int) (depth maxDepth : Int)
    (w : World) : Run (RGBColor × World) :=
  triangle_intersecte.triangle.deref.bind fun tri =>
    let specular_indirectColor := RGBColor.black
    let Ks := tri.material.specularColor
    let sh : Int := if 0 ≤ tri.material.specularExponent
      then ⌊tri.material.specularExponent⌋ else ⌈tri.material.specularExponent⌉
    let d := triangle_intersecte.tRayValue
    (emissiveColor triangle_intersecte).bind fun surfaceLight =>
      if Ks ≠ RGBColor.black then
        let R := env.reflectionDirection tri triangle_intersecte.ray
        (specularLoop env send triangle_intersecte Ks d surfaceLight R sh depth maxDepth
            maxRays.toNat specular_indirectColor w).bind fun res =>
          (scaleByInverse res.1 maxRays).bind fun average => Run.ok (average, res.2)
      else
        (scaleByInverse specular_indirectColor maxRays).bind fun average =>
          Run.ok (average, w)

/-- Scene::refraction; `send` is the `sendRay` it calls back. -/
def refraction (env : Env) (send : Sender) (triangle_intersecte : RayTriangleIntersection)
    (w : World) : Run (RGBColor × World) :=
  triangle_intersecte.triangle.deref.bind fun tri =>
    let refractionRay := env.mkRay triangle_intersecte.intersection
      (env.refractionDirection tri triangle_intersecte.ray)
    send refractionRay 0 2 w

/-- Scene::sendRay.  The first argument is the fuel: the number of nested activations of
`sendRay` that may still be opened. -/
def sendRay (env : Env) : Nat → Sender
  | 0, _, _, _, _ => Run.outOfFuel
  | fuel + 1, ray, depth, maxDepth, w =>
      let maxRays : Int := 300
      if depth = maxDepth then
        (rayIntersection env w.scene ray).bind fun hit =>
          (emissiveColor hit).bind fun c => Run.ok (c, w)
      else
        (rayIntersection env w.scene ray).bind fun hit =>
          hit.triangle.deref.bind fun tri =>
            if tri.material.refractionIndex ≠ 0 then
              (rayIntersection env w.scene ray).bind fun hit1 =>
                refraction env (sendRay env fuel) hit1 w
            else
              (rayIntersection env w.scene ray).bind fun hit1 =>
                (global_diffuseColor env (sendRay env fuel) hit1 maxRays depth maxDepth w).bind
                  fun diffus =>
                    (rayIntersection env diffus.2.scene ray).bind fun hit2 =>
                      (global_specular_indirectColor env (sendRay env fuel) hit2 maxRays depth
                          maxDepth diffus.2).bind
                        fun spec => Run.ok (diffus.1.add spec.1, spec.2)

/-! ## A concrete environment and concrete scenes -/

/-- Difference of two vectors. -/
def Vector3.sub (a b : Vector3) : Vector3 := ⟨a.x - b.x, a.y - b.y, a.z - b.z⟩

/-- Vector product. -/
def Vector3.cross (a b : Vector3) : Vector3 :=
  ⟨a.y * b.z - a.z * b.y, a.z * b.x - a.x * b.z, a.x * b.y - a.y * b.x⟩

/-- A ray-triangle test for the examples: the Möller-Trumbore test in exact arithmetic.  The
test fails for a triangle behind the source of the ray, after the (negative) distance to
its plane has been computed. -/
def mollerTrumbore (tri : Triangle) (ray : Ray) : Bool × ℚ :=
  let edge1 := tri.vertex1.sub tri.vertex0
  let edge2 := tri.vertex2.sub tri.vertex0
  let pvec := ray.direction.cross edge2
  let det := edge1.dot pvec
  if det = 0 then (false, 0) else
    let tvec := ray.source.sub tri.vertex0
    let u := tvec.dot pvec / det
    if u < 0 ∨ 1 < u then (false, 0) else
      let qvec := tvec.cross edge1
      let v := ray.direction.dot qvec / det
      if v < 0 ∨ 1 < u + v then (false, 0) else
        let t := edge2.dot qvec / det
        (decide (0 < t), t)

/-- An environment for the examples: the Möller-Trumbore test, the (unnormalised) normal of
the triangle, straight-through reflection and refraction directions, a sampler that returns
the reference direction and steps the random state, and a camera that looks at its target
through every pixel. -/
def demoEnv : Env where
  intersection := mollerTrumbore
  normal := fun tri => (tri.vertex1.sub tri.vertex0).cross (tri.vertex2.sub tri.vertex0)
  reflectionDirection := fun _ ray => ray.direction
  refractionDirection := fun _ ray => ray.direction
  generate := fun dir _ seed => (dir, seed + 1)
  mkRay := fun source direction => ⟨source, direction⟩
  getRay := fun cam _ _ => ⟨cam.position, cam.target.sub cam.position⟩

/-- A material that only emits red light: emissive colour (1,0,0), no diffuse, specular or
refractive part. -/
def redLamp : Material := ⟨⟨0, 0, 0⟩, ⟨0, 0, 0⟩, ⟨0, 0, 0⟩, 0, 0, ⟨1, 0, 0⟩⟩

/-- A triangle in the plane `z = 1`, above the origin. -/
def lampTriangle : Triangle := ⟨⟨-1, -1, 1⟩, ⟨3, -1, 1⟩, ⟨-1, 3, 1⟩, redLamp⟩

/-- A camera at the origin that looks up the z axis. -/
def demoCamera : Camera := ⟨⟨0, 0, 0⟩, ⟨0, 0, 1⟩, 1, 1, 1⟩

/-- A box around `lampTriangle`. -/
def lampBox : BoundingBox := ⟨⟨-1, -1, 1⟩, ⟨3, 3, 1⟩⟩

/-- A scene with one geometry, made of `lampTriangle` alone. -/
def lampScene : Scene := ⟨0, [(lampBox, ⟨[lampTriangle]⟩)], [], demoCamera⟩

/-- A scene with no geometry. -/
def emptyScene : Scene := ⟨0, [], [], demoCamera⟩

/-- The ray from the origin up the z axis: it crosses `lampTriangle` at distance 1. -/
def rayUp : Ray := ⟨⟨0, 0, 0⟩, ⟨0, 0, 1⟩⟩

/-- The ray from the origin down the z axis: it crosses no triangle of `lampScene`. -/
def rayDown : Ray := ⟨⟨0, 0, 0⟩, ⟨0, 0, -1⟩⟩

/-- A transparent material, the `transparent` of `main.cpp`: refraction index 1.5. -/
def glass : Material := ⟨⟨0, 0, 0⟩, ⟨1, 1, 1⟩, ⟨0, 0, 0⟩, 0, 3 / 2, ⟨0, 0, 0⟩⟩

/-- A transparent triangle in the plane `z = 1`. -/
def glassTriangle : Triangle := ⟨⟨-1, -1, 1⟩, ⟨3, -1, 1⟩, ⟨-1, 3, 1⟩, glass⟩

/-- A scene with one geometry, made of `glassTriangle` alone. -/
def glassScene : Scene := ⟨0, [(lampBox, ⟨[glassTriangle]⟩)], [], demoCamera⟩

/-- A triangle in the plane `z = -1`, behind the source of `rayUp`. -/
def behindTriangle : Triangle := ⟨⟨-1, -1, -1⟩, ⟨3, -1, -1⟩, ⟨-1, 3, -1⟩, redLamp⟩

/-- A triangle in the plane `z = FLT_MAX`, that `rayUp` crosses at distance `FLT_MAX`. -/
def farTriangle : Triangle :=
  ⟨⟨-1, -1, FLT_MAX⟩, ⟨3, -1, FLT_MAX⟩, ⟨-1, 3, FLT_MAX⟩, redLamp⟩

/-- A scene with one geometry, made of `behindTriangle` followed by `farTriangle`. -/
def farScene : Scene :=
  ⟨0, [(⟨⟨-1, -1, -1⟩, ⟨3, 3, FLT_MAX⟩⟩, ⟨[behindTriangle, farTriangle]⟩)], [], demoCamera⟩

/-- A scene with one geometry, made of `behindTriangle` followed by `lampTriangle`. -/
def twoScene : Scene :=
  ⟨0, [(⟨⟨-1, -1, -1⟩, ⟨3, 3, 1⟩⟩, ⟨[behindTriangle, lampTriangle]⟩)], [], demoCamera⟩

/-! ## The estimators in the words of the specification -/

/-- The normal of the triangle, negated when it does not face the incoming ray: the value
of `N` after the first `if` of `global_diffuseColor`. -/
def facingNormal (env : Env) (tri : Triangle) (ray : Ray) : Vector3 :=
  if (ray.direction.neg).dot (env.normal tri) < 0 then (env.normal tri).scale (-1)
  else env.normal tri

/-- The colours `sendRay(Ray(hitPoint, dir_i), depth + 1, maxDepth)` of `n` successive
samples: each direction `dir_i` is drawn around `N` from the sampler, in the world the
previous sample left. -/
def diffuseSamples (env : Env) (send : Sender) (triangle_intersecte : RayTriangleIntersection)
    (N : Vector3) (depth maxDepth : Int) : Nat → World → Run (List RGBColor × World)
  | 0, w => Run.ok ([], w)
  | n + 1, w =>
      let sample := env.generate N none w.seed
      (send (env.mkRay triangle_intersecte.intersection sample.1) (depth + 1) maxDepth
          ⟨w.scene, sample.2⟩).bind fun res =>
        (diffuseSamples env send triangle_intersecte N depth maxDepth n res.2).bind fun rest =>
          Run.ok (res.1 :: rest.1, rest.2)

/-- The average of the specification: `(1 / maxRays) * sum_i (Kd * s_i / d + E)`, the
product of colours being per channel. -/
def averagedEstimate (K : RGBColor) (d : ℚ) (E : RGBColor) (maxRays : Int)
    (samples : List RGBColor) : RGBColor :=
  (List.sum (samples.map fun s => ((K.mul s).div d) + E)).scale (1 / (maxRays : ℚ))

/-- A red paint that also glows: diffuse coefficient (2,0,0), emissive colour (1,0,0), no
specular or refractive part. -/
def glowPaint : Material := ⟨⟨0, 0, 0⟩, ⟨2, 0, 0⟩, ⟨0, 0, 0⟩, 0, 0, ⟨1, 0, 0⟩⟩

/-- A glowing triangle in the plane `z = 1`. -/
def glowTriangle : Triangle := ⟨⟨-1, -1, 1⟩, ⟨3, -1, 1⟩, ⟨-1, 3, 1⟩, glowPaint⟩

/-- A scene with one geometry, made of `glowTriangle` alone. -/
def glowScene : Scene := ⟨0, [(lampBox, ⟨[glowTriangle]⟩)], [], demoCamera⟩

/-- A glowing triangle in the plane `z = -1`, behind the source of `rayUp`. -/
def glowBehindTriangle : Triangle := ⟨⟨-1, -1, -1⟩, ⟨3, -1, -1⟩, ⟨-1, 3, -1⟩, glowPaint⟩

/-- A scene with one geometry, made of `glowBehindTriangle` alone. -/
def glowBehindScene : Scene :=
  ⟨0, [(⟨⟨-1, -1, -1⟩, ⟨3, 3, -1⟩⟩, ⟨[glowBehindTriangle]⟩)], [], demoCamera⟩

/-! ## Properties of scenes, worlds and callbacks used in the statements -/

/-- The scene `s'` has the geometry collection, the light collection and the camera of
`s`; only the counter `count` may differ. -/
def Scene.SameSetup (s s' : Scene) : Prop :=
  s'.m_geometries = s.m_geometries ∧ s'.m_lights = s.m_lights ∧ s'.m_camera = s.m_camera

/-- The callback leaves the geometry, the lights and the camera of the scene as they are. -/
def Sender.Frames (send : Sender) : Prop :=
  ∀ r d m w c w', send r d m w = Run.ok (c, w') → w.scene.SameSetup w'.scene

/-- The material has non-negative diffuse, specular and emissive channels. -/
def Material.NonNeg (m : Material) : Prop :=
  m.diffuseColor.NonNeg ∧ m.specularColor.NonNeg ∧ m.emissiveColor.NonNeg

/-- Every callback result that is not an exhausted fuel is also the result of `send'`: the
callback `send'` goes at least as far as `send`. -/
def Sender.Extends (send send' : Sender) : Prop :=
  ∀ r d m w, send r d m w ≠ Run.outOfFuel → send' r d m w = send r d m w

/-- The run came back with a value. -/
def Run.Returns {α : Type} (m : Run α) : Prop := ∃ a, m = Run.ok a

/-- No triangle of the scene has a material with a non-zero refraction index. -/
def Scene.NoRefraction (s : Scene) : Prop :=
  ∀ g j tri, s.triangleAt g j = some tri → tri.material.refractionIndex = 0

/-- The body of `sendRay`, with its nested calls sent to the callback `send`:
`sendRay env (fuel + 1)` is `sendRayBody env (sendRay env fuel)`. -/
def sendRayBody (env : Env) (send : Sender) : Sender := fun ray depth maxDepth w =>
  let maxRays : Int := 300
  if depth = maxDepth then
    (rayIntersection env w.scene ray).bind fun hit =>
      (emissiveColor hit).bind fun c => Run.ok (c, w)
  else
    (rayIntersection env w.scene ray).bind fun hit =>
      hit.triangle.deref.bind fun tri =>
        if tri.material.refractionIndex ≠ 0 then
          (rayIntersection env w.scene ray).bind fun hit1 =>
            refraction env send hit1 w
        else
          (rayIntersection env w.scene ray).bind fun hit1 =>
            (global_diffuseColor env send hit1 maxRays depth maxDepth w).bind
              fun diffus =>
                (rayIntersection env diffus.2.scene ray).bind fun hit2 =>
                  (global_specular_indirectColor env send hit2 maxRays depth
                      maxDepth diffus.2).bind
                    fun spec => Run.ok (diffus.1.add spec.1, spec.2)

/-- The variant of the diffuse estimator that averages the scattered part alone and adds the
emissive colour once, after the division: `(1 / maxRays) * sum_i (Kd * s_i / d) + E`. -/
def emissionOutsideEstimate (K : RGBColor) (d : ℚ) (E : RGBColor) (maxRays : Int)
    (samples : List RGBColor) : RGBColor :=
  ((List.sum (samples.map fun s => (K.mul s).div d)).scale (1 / (maxRays : ℚ))).add E

/-- Modelled from the spec: Visualizer::Visualizer (header not in the sources), the output
sink: its width and height, the colours written by `plot(x, y, color)`, most recent first,
and the number of `update()` calls. -/
structure Visualizer where
  width : Nat
  height : Nat
  plotted : List (Nat × Nat × RGBColor)
  updates : Nat
deriving DecidableEq

/-- Modelled from the spec: Visualizer::plot, a pixel colour write. -/
def Visualizer.plot (v : Visualizer) (x y : Nat) (c : RGBColor) : Visualizer :=
  { v with plotted := (x, y, c) :: v.plotted }

/-- The colour shown at a pixel: the one of the most recent `plot` at this position. -/
def Visualizer.pixel (v : Visualizer) (x y : Nat) : Option RGBColor :=
  (v.plotted.find? fun p => decide (p.1 = x ∧ p.2.1 = y)).map fun p => p.2.2

/-- What `compute` reads and writes: the world, the rendering target behind `m_visu`, and
the local variables `pixelTable` and `pass`. -/
structure RenderState where
  world : World
  visu : Visualizer
  pixelTable : List (List (Int × RGBColor))
  pass : Int
deriving DecidableEq

/-- The table `pixelTable` as `compute` allocates it: `width` rows of `width` entries
`(0, RGBColor())`. -/
def allocPixelTable (width : Nat) : List (List (Int × RGBColor)) :=
  List.replicate width (List.replicate width ((0 : Int), RGBColor.black))

/-- The element access `pixelTable[x][y]`; `none` when an index is out of range. -/
def pixelAt (table : List (List (Int × RGBColor))) (x y : Nat) : Option (Int × RGBColor) :=
  match table[x]? with
  | none => none
  | some row => row[y]?

/-- The body of the pixel loop of `compute` for pixel `(x, y)` in the pass of sub-pixel
offset `(xp, yp)`. -/
def renderPixel (env : Env) (fuel : Nat) (maxDepth : Int) (xp yp : ℚ) (y : Nat)
    (st : RenderState) (x : Nat) : Run RenderState :=
  let ray := env.getRay st.world.scene.m_camera (((x : ℚ) + xp) / (st.visu.width : ℚ))
    (((y : ℚ) + yp) / (st.visu.height : ℚ))
  (sendRay env fuel ray 0 maxDepth st.world).bind fun res =>
    let result := res.1.scale 5
    match st.pixelTable[x]? with
    | none => Run.fault Fault.outOfBounds
    | some row =>
      match row[y]? with
      | none => Run.fault Fault.outOfBounds
      | some currentPixel =>
        let first := currentPixel.1 + 1
        let second := currentPixel.2.add result
        Run.ok
          { world := res.2
            visu := st.visu.plot x y (second.div (first : ℚ))
            pixelTable := st.pixelTable.set x (row.set y (first, second))
            pass := st.pass }

/-- The table has `width` rows of `width` entries. -/
def TableShape (table : List (List (Int × RGBColor))) (width : Nat) : Prop :=
  table.length = width ∧ ∀ row ∈ table, row.length = width

/-- The pixel `(x, y)` has received exactly one sample in the pass of offset `(xp, yp)`:
its entry of the table is `(1, 5 * c)` and the colour it shows is `5 * c`, where `c` is
what `sendRay` returned for the camera ray of the pixel at depth 0, called in a world whose
scene has the set-up of `s0`. -/
def PixelDone (env : Env) (fuel : Nat) (maxDepth : Int) (s0 : Scene) (W H : Nat) (xp yp : ℚ)
    (st : RenderState) (x y : Nat) : Prop :=
  ∃ w c w', s0.SameSetup w.scene ∧
    sendRay env fuel
      (env.getRay s0.m_camera (((x : ℚ) + xp) / (W : ℚ)) (((y : ℚ) + yp) / (H : ℚ)))
      0 maxDepth w = Run.ok (c, w') ∧
    pixelAt st.pixelTable x y = some (1, c.scale 5) ∧ st.visu.pixel x y = some (c.scale 5)

/-- The state of `compute` during its pass: the rendering target keeps its size, the scene
keeps its set-up, the visited pixels have received exactly one sample and the entries of
the other pixels are as allocated. -/
def PassInvariant (env : Env) (fuel : Nat) (maxDepth : Int) (s0 : Scene) (W H : Nat)
    (xp yp : ℚ) (visited : Nat → Nat → Prop) (st : RenderState) : Prop :=
  st.visu.width = W ∧ st.visu.height = H ∧ s0.SameSetup st.world.scene ∧
    (∀ x y, visited x y → PixelDone env fuel maxDepth s0 W H xp yp st x y) ∧
    (∀ x y, ¬ visited x y → pixelAt st.pixelTable x y = pixelAt (allocPixelTable W) x y)

/-! # Theorems -/

/-! ## Sequencing -/

@[simp] theorem Run.bind_ok {α β : Type} (a : α) (k : α → Run β) :
    (Run.ok a).bind k = k a := rfl

@[simp] theorem Run.bind_fault {α β : Type} (f : Fault) (k : α → Run β) :
    (Run.fault f : Run α).bind k = Run.fault f := rfl

@[simp] theorem Run.bind_outOfFuel {α β : Type} (k : α → Run β) :
    (Run.outOfFuel : Run α).bind k = Run.outOfFuel := rfl

/-- A sequence returns a value exactly when both of its parts do. -/
theorem Run.bind_eq_ok {α β : Type} {m : Run α} {k : α → Run β} {b : β} :
    m.bind k = Run.ok b ↔ ∃ a, m = Run.ok a ∧ k a = Run.ok b := by
  cases m <;> simp [Run.bind]

/-! ## The averaging factor -/

/-- With a non-zero number of rays the averaging factor is an ordinary product. -/
theorem scaleByInverse_of_ne (colour : RGBColor) {maxRays : Int} (h : maxRays ≠ 0) :
    scaleByInverse colour maxRays = Run.ok (colour.scale (1 / (maxRays : ℚ))) := by
  simp [scaleByInverse, h]

/-- The number of rays `sendRay` asks for. -/
@[simp] theorem scaleByInverse_300 (colour : RGBColor) :
    scaleByInverse colour 300 = Run.ok (colour.scale (1 / ((300 : Int) : ℚ))) :=
  scaleByInverse_of_ne colour (by decide)

/-- With no ray at all the averaging factor is `1.0f / 0` and the product is not finite. -/
@[simp] theorem scaleByInverse_zero (colour : RGBColor) :
    scaleByInverse colour 0 = Run.fault Fault.notFinite := by
  simp [scaleByInverse]

/-- A product by the averaging factor that came back was taken over a non-zero number of
rays. -/
theorem scaleByInverse_eq_ok {colour average : RGBColor} {maxRays : Int}
    (h : scaleByInverse colour maxRays = Run.ok average) :
    maxRays ≠ 0 ∧ average = colour.scale (1 / (maxRays : ℚ)) := by
  unfold scaleByInverse at h
  split_ifs at h with h0
  exact ⟨h0, (Run.ok.inj h).symm⟩

/-! ## Colours -/

theorem RGBColor.add_def (a c : RGBColor) : a + c = a.add c := rfl

theorem RGBColor.zero_def : (0 : RGBColor) = RGBColor.black := rfl

@[simp] theorem RGBColor.black_scale (k : ℚ) : RGBColor.black.scale k = RGBColor.black := by
  simp [RGBColor.black, RGBColor.scale]

/-! ## The nearest-hit query -/

/-- The record `rayIntersection` returns always points at the triangle stored at the
indices the scan ends with. -/
theorem rayIntersection_eq_ok {env : Env} {s : Scene} {ray : Ray}
    {hit : RayTriangleIntersection} (h : rayIntersection env s ray = Run.ok hit) :
    ∃ g j tri, s.triangleAt g j = some tri ∧
      hit = RayTriangleIntersection.ofTriangle env g j tri ray := by
  simp only [rayIntersection] at h
  split at h
  · exact absurd h (by simp)
  · next tri htri =>
    refine ⟨_, _, tri, htri, ?_⟩
    simpa using h.symm

/-- The query reads the geometry collection of the scene and nothing else. -/
theorem rayIntersection_congr (env : Env) {s s' : Scene} (ray : Ray)
    (h : s'.m_geometries = s.m_geometries) :
    rayIntersection env s' ray = rayIntersection env s ray := by
  simp [rayIntersection, Scene.triangleAt, h]

/-! ## The terminal case, the refractive case and the skip law of `sendRay` -/

/-- C2: when `depth == maxDepth` and `rayIntersection(ray)` returns a triangle, `sendRay`
returns exactly the emissive colour of the material of that triangle, whatever the diffuse
coefficient, the specular coefficient and the refraction index of the material are.  One
unit of fuel is enough, so no nested `sendRay` call is made, and the world comes back
unchanged: no direction is sampled and the counter is not touched. -/
theorem sendRay_at_maxDepth (env : Env) (fuel : Nat) (ray : Ray) (depth maxDepth : Int)
    (w : World) (hit : RayTriangleIntersection) (hdepth : depth = maxDepth)
    (hhit : rayIntersection env w.scene ray = Run.ok hit) :
    ∃ g j tri, hit.triangle = TrianglePtr.elem g j tri ∧ w.scene.triangleAt g j = some tri ∧
      sendRay env (fuel + 1) ray depth maxDepth w = Run.ok (tri.material.emissiveColor, w) := by
  obtain ⟨g, j, tri, hat, rfl⟩ := rayIntersection_eq_ok hhit
  refine ⟨g, j, tri, rfl, hat, ?_⟩
  simp [sendRay, hdepth, hhit, emissiveColor, RayTriangleIntersection.ofTriangle,
    TrianglePtr.deref]

/-- C3: when `depth != maxDepth` and the triangle returned by `rayIntersection(ray)` has a
material with a non-zero refraction index, `sendRay(ray, depth, maxDepth)` is the nested
call `sendRay(refractionRay, 0, 2)`, where `refractionRay` starts at the hit point and
follows the refraction direction of the triangle; hence the result is the same for every
pair `(depth', maxDepth')` with `depth' != maxDepth'`. -/
theorem sendRay_refractive (env : Env) (fuel : Nat) (ray : Ray) (depth maxDepth : Int)
    (w : World) (hit : RayTriangleIntersection) (g j : Nat) (tri : Triangle)
    (hdepth : depth ≠ maxDepth) (hhit : rayIntersection env w.scene ray = Run.ok hit)
    (htri : hit.triangle = TrianglePtr.elem g j tri)
    (hrefr : tri.material.refractionIndex ≠ 0) :
    sendRay env (fuel + 1) ray depth maxDepth w =
        sendRay env fuel
          (env.mkRay hit.intersection (env.refractionDirection tri hit.ray)) 0 2 w ∧
      ∀ depth' maxDepth' : Int, depth' ≠ maxDepth' →
        sendRay env (fuel + 1) ray depth' maxDepth' w =
          sendRay env (fuel + 1) ray depth maxDepth w := by
  have key : ∀ d m : Int, d ≠ m → sendRay env (fuel + 1) ray d m w =
      sendRay env fuel
        (env.mkRay hit.intersection (env.refractionDirection tri hit.ray)) 0 2 w := by
    intro d m hdm
    simp [sendRay, hdm, hhit, htri, TrianglePtr.deref, hrefr, refraction]
  exact ⟨key depth maxDepth hdepth, fun d m hdm => (key d m hdm).trans (key depth maxDepth hdepth).symm⟩

/-- With no ray at all, `global_diffuseColor` on a record that refers to a triangle ends
in the product of the zero colour by `1.0f / 0`, which is not a finite colour, whatever the
diffuse coefficient. -/
theorem global_diffuseColor_zero_rays (env : Env) (send : Sender)
    (hit : RayTriangleIntersection) (g j : Nat) (tri : Triangle) (depth maxDepth : Int)
    (w : World) (htri : hit.triangle = TrianglePtr.elem g j tri) :
    global_diffuseColor env send hit 0 depth maxDepth w = Run.fault Fault.notFinite := by
  by_cases hKd : tri.material.diffuseColor = RGBColor.black
  · simp [global_diffuseColor, htri, TrianglePtr.deref, emissiveColor, hKd]
  · simp [global_diffuseColor, htri, TrianglePtr.deref, emissiveColor, hKd, diffuseLoop]

/-- With no ray at all, `global_specular_indirectColor` on a record that refers to a
triangle ends in the product of the zero colour by `1.0f / 0`, which is not a finite
colour, whatever the specular coefficient. -/
theorem global_specular_indirectColor_zero_rays (env : Env) (send : Sender)
    (hit : RayTriangleIntersection) (g j : Nat) (tri : Triangle) (depth maxDepth : Int)
    (w : World) (htri : hit.triangle = TrianglePtr.elem g j tri) :
    global_specular_indirectColor env send hit 0 depth maxDepth w =
      Run.fault Fault.notFinite := by
  by_cases hKs : tri.material.specularColor = RGBColor.black
  · simp [global_specular_indirectColor, htri, TrianglePtr.deref, emissiveColor, hKs]
  · simp [global_specular_indirectColor, htri, TrianglePtr.deref, emissiveColor, hKs,
      specularLoop]

/-- C7, as stated, fails at `maxRays = 0`: `lampTriangle` has the zero colour as diffuse and
as specular coefficient, and on a hit of it with `maxRays = 0` both estimators end in
`black * (1.0f / 0)`, that is `0 * inf`, which is NaN in every channel and not the zero
colour. -/
theorem global_estimators_not_finite :
    lampTriangle.material.diffuseColor = RGBColor.black ∧
      lampTriangle.material.specularColor = RGBColor.black ∧
      global_diffuseColor demoEnv (sendRay demoEnv 0)
          ⟨TrianglePtr.elem 0 0 lampTriangle, rayUp, 1⟩ 0 0 2 ⟨lampScene, 0⟩ =
        Run.fault Fault.notFinite ∧
      global_specular_indirectColor demoEnv (sendRay demoEnv 0)
          ⟨TrianglePtr.elem 0 0 lampTriangle, rayUp, 1⟩ 0 0 2 ⟨lampScene, 0⟩ =
        Run.fault Fault.notFinite ∧
      global_diffuseColor demoEnv (sendRay demoEnv 0)
          ⟨TrianglePtr.elem 0 0 lampTriangle, rayUp, 1⟩ 0 0 2 ⟨lampScene, 0⟩ ≠
        Run.ok (RGBColor.black, ⟨lampScene, 0⟩) ∧
      global_specular_indirectColor demoEnv (sendRay demoEnv 0)
          ⟨TrianglePtr.elem 0 0 lampTriangle, rayUp, 1⟩ 0 0 2 ⟨lampScene, 0⟩ ≠
        Run.ok (RGBColor.black, ⟨lampScene, 0⟩) := by
  have hd := global_diffuseColor_zero_rays demoEnv (sendRay demoEnv 0)
    ⟨TrianglePtr.elem 0 0 lampTriangle, rayUp, 1⟩ 0 0 lampTriangle 0 2 ⟨lampScene, 0⟩ rfl
  have hs := global_specular_indirectColor_zero_rays demoEnv (sendRay demoEnv 0)
    ⟨TrianglePtr.elem 0 0 lampTriangle, rayUp, 1⟩ 0 0 lampTriangle 0 2 ⟨lampScene, 0⟩ rfl
  refine ⟨rfl, rfl, hd, hs, ?_, ?_⟩
  · rw [hd]
    exact fun h => Run.noConfusion h
  · rw [hs]
    exact fun h => Run.noConfusion h

/-- C7, as amended: for every `maxRays` other than 0, on a hit whose material has the zero
colour as diffuse coefficient, `global_diffuseColor` returns exactly the zero colour, for
every callback `send`, every `depth` and `maxDepth`: the result holds also for a callback
that never returns, so no `sendRay` call is made, and the world comes back unchanged.
Symmetrically `global_specular_indirectColor` returns the zero colour when the specular
coefficient is the zero colour. -/
theorem global_estimators_skip (env : Env) (send : Sender) (hit : RayTriangleIntersection)
    (g j : Nat) (tri : Triangle) (maxRays depth maxDepth : Int) (w : World)
    (htri : hit.triangle = TrianglePtr.elem g j tri) (hrays : maxRays ≠ 0) :
    (tri.material.diffuseColor = RGBColor.black →
        global_diffuseColor env send hit maxRays depth maxDepth w =
          Run.ok (RGBColor.black, w)) ∧
      (tri.material.specularColor = RGBColor.black →
        global_specular_indirectColor env send hit maxRays depth maxDepth w =
          Run.ok (RGBColor.black, w)) := by
  constructor
  · intro hKd
    simp [global_diffuseColor, htri, TrianglePtr.deref, emissiveColor, hKd,
      scaleByInverse_of_ne _ hrays]
  · intro hKs
    simp [global_specular_indirectColor, htri, TrianglePtr.deref, emissiveColor, hKs,
      scaleByInverse_of_ne _ hrays]

/-! ## Rays that cross no triangle -/

/-- C1: the ray `rayDown` crosses no triangle of `lampScene`, yet `sendRay` returns the
emissive colour (1,0,0) of the first triangle of the scene instead of the zero colour; on
the scene without geometry `sendRay` indexes the empty geometry collection. -/
theorem sendRay_miss_returns_emission :
    (∀ tri ∈ [lampTriangle], (demoEnv.intersection tri rayDown).1 = false) ∧
      sendRay demoEnv 1 rayDown 0 0 ⟨lampScene, 0⟩ =
        Run.ok (⟨1, 0, 0⟩, ⟨lampScene, 0⟩) ∧
      sendRay demoEnv 1 rayDown 0 0 ⟨emptyScene, 0⟩ = Run.fault Fault.outOfBounds := by
  refine ⟨?_, ?_, ?_⟩
  · norm_num [demoEnv, mollerTrumbore, lampTriangle, rayDown, Vector3.sub, Vector3.cross,
      Vector3.dot]
  · norm_num [sendRay, rayIntersection, scanGeometries, scanTriangles, scanStep, demoEnv,
      lampScene, Scene.triangleAt, emissiveColor, TrianglePtr.deref,
      RayTriangleIntersection.ofTriangle, mollerTrumbore, lampTriangle, rayDown, Vector3.sub,
      Vector3.cross, Vector3.dot, FLT_MAX, redLamp, Material.emissiveColor]
  · simp [sendRay, rayIntersection, scanGeometries, emptyScene, Scene.triangleAt]

/-- C5: the ray `rayDown` crosses no triangle of `lampScene`, yet `rayIntersection` returns
a record that refers to the first triangle of the scene, not a null reference; on the
scene without geometry it indexes the empty geometry collection. -/
theorem rayIntersection_miss_returns_first_triangle :
    (∀ tri ∈ [lampTriangle], (demoEnv.intersection tri rayDown).1 = false) ∧
      rayIntersection demoEnv lampScene rayDown =
        Run.ok ⟨TrianglePtr.elem 0 0 lampTriangle, rayDown, -1⟩ ∧
      rayIntersection demoEnv emptyScene rayDown = Run.fault Fault.outOfBounds := by
  refine ⟨?_, ?_, ?_⟩
  · norm_num [demoEnv, mollerTrumbore, lampTriangle, rayDown, Vector3.sub, Vector3.cross,
      Vector3.dot]
  · norm_num [rayIntersection, scanGeometries, scanTriangles, scanStep, demoEnv,
      lampScene, Scene.triangleAt, RayTriangleIntersection.ofTriangle, mollerTrumbore,
      lampTriangle, rayDown, Vector3.sub, Vector3.cross, Vector3.dot, FLT_MAX]
  · simp [rayIntersection, scanGeometries, emptyScene, Scene.triangleAt]

/-! ## The scan of `rayIntersection` -/

/-- One step of the scan never raises the running minimum. -/
theorem scanStep_min_le (env : Env) (ray : Ray) (i j : Nat) (tri : Triangle) (st : ScanState) :
    (scanStep env ray i j tri st).profondeur_min ≤ st.profondeur_min := by
  unfold scanStep
  split_ifs with h1 h2
  · exact le_of_lt h2
  · exact le_refl _
  · exact le_refl _

/-- After the step for a triangle whose test succeeds, the running minimum is at most the
distance of that triangle. -/
theorem scanStep_le_dist (env : Env) (ray : Ray) (i j : Nat) (tri : Triangle) (st : ScanState)
    (h : (env.intersection tri ray).1 = true) :
    (scanStep env ray i j tri st).profondeur_min ≤ (env.intersection tri ray).2 := by
  unfold scanStep
  split_ifs with h2
  · exact le_refl _
  · exact not_lt.mp h2

/-- A step either keeps the state or records the triangle, whose test succeeded strictly
below the previous minimum. -/
theorem scanStep_cases (env : Env) (ray : Ray) (i j : Nat) (tri : Triangle) (st : ScanState) :
    scanStep env ray i j tri st = st ∨
      ((env.intersection tri ray).1 = true ∧ (env.intersection tri ray).2 < st.profondeur_min ∧
        scanStep env ray i j tri st = ⟨i, j, (env.intersection tri ray).2⟩) := by
  unfold scanStep
  split_ifs with h1 h2
  · exact Or.inr ⟨h1, h2, rfl⟩
  · exact Or.inl rfl
  · exact Or.inl rfl

/-- The inner loop: the final minimum is below the initial one and below the distance of
every triangle of the list whose test succeeds; the final state is the initial one, or it
records a triangle of the list whose test succeeds strictly below the initial minimum and
strictly below every successful triangle before it. -/
theorem scanTriangles_spec (env : Env) (ray : Ray) (i : Nat) :
    ∀ (tris : List Triangle) (j0 : Nat) (st : ScanState),
      (scanTriangles env ray i tris j0 st).profondeur_min ≤ st.profondeur_min ∧
      (∀ (k : Nat) (tri : Triangle), tris[k]? = some tri → (env.intersection tri ray).1 = true →
        (scanTriangles env ray i tris j0 st).profondeur_min ≤ (env.intersection tri ray).2) ∧
      (scanTriangles env ray i tris j0 st = st ∨
        ∃ (k : Nat) (tri : Triangle), tris[k]? = some tri ∧ (env.intersection tri ray).1 = true ∧
          scanTriangles env ray i tris j0 st = ⟨i, j0 + k, (env.intersection tri ray).2⟩ ∧
          (env.intersection tri ray).2 < st.profondeur_min ∧
          ∀ (k' : Nat) (tri' : Triangle), k' < k → tris[k']? = some tri' → (env.intersection tri' ray).1 = true →
            (env.intersection tri ray).2 < (env.intersection tri' ray).2) := by
  intro tris
  induction tris with
  | nil => intro j0 st; simp [scanTriangles]
  | cons tri rest ih =>
    intro j0 st
    obtain ⟨hA, hB, hC⟩ := ih (j0 + 1) (scanStep env ray i j0 tri st)
    have h1 := scanStep_min_le env ray i j0 tri st
    simp only [scanTriangles]
    refine ⟨le_trans hA h1, ?_, ?_⟩
    · intro k tri' hk hhit
      cases k with
      | zero =>
        simp at hk
        subst hk
        exact le_trans hA (scanStep_le_dist env ray i j0 tri st hhit)
      | succ k => exact hB k tri' (by simpa using hk) hhit
    · rcases hC with hC | ⟨k, tri', hk, hhit, hst, hlt, hfirst⟩
      · rcases scanStep_cases env ray i j0 tri st with hs | ⟨hhit, hlt, hs⟩
        · exact Or.inl (hC.trans hs)
        · refine Or.inr ⟨0, tri, by simp, hhit, ?_, hlt, ?_⟩
          · rw [hC, hs]; rfl
          · intro k' tri' hk'; omega
      · refine Or.inr ⟨k + 1, tri', by simpa using hk, hhit, ?_, lt_of_lt_of_le hlt h1, ?_⟩
        · rw [hst]; congr 1; omega
        · intro k' tri'' hk' hget hhit'
          cases k' with
          | zero =>
            simp at hget
            subst hget
            exact lt_of_lt_of_le hlt (scanStep_le_dist env ray i j0 tri st hhit')
          | succ k' => exact hfirst k' tri'' (by omega) (by simpa using hget) hhit'

/-- The outer loop: the same three facts over all triangles of all geometries, in scan
order (geometry index, then triangle index). -/
theorem scanGeometries_spec (env : Env) (ray : Ray) :
    ∀ (geos : List (BoundingBox × Geometry)) (i0 : Nat) (st : ScanState),
      (scanGeometries env ray geos i0 st).profondeur_min ≤ st.profondeur_min ∧
      (∀ (a : Nat) (geo : BoundingBox × Geometry) (k : Nat) (tri : Triangle),
          geos[a]? = some geo → geo.2.getTriangles[k]? = some tri →
        (env.intersection tri ray).1 = true →
        (scanGeometries env ray geos i0 st).profondeur_min ≤ (env.intersection tri ray).2) ∧
      (scanGeometries env ray geos i0 st = st ∨
        ∃ (a : Nat) (geo : BoundingBox × Geometry) (k : Nat) (tri : Triangle),
          geos[a]? = some geo ∧ geo.2.getTriangles[k]? = some tri ∧
          (env.intersection tri ray).1 = true ∧
          scanGeometries env ray geos i0 st = ⟨i0 + a, k, (env.intersection tri ray).2⟩ ∧
          (env.intersection tri ray).2 < st.profondeur_min ∧
          ∀ (a' : Nat) (geo' : BoundingBox × Geometry) (k' : Nat) (tri' : Triangle),
            (a' < a ∨ (a' = a ∧ k' < k)) → geos[a']? = some geo' →
            geo'.2.getTriangles[k']? = some tri' → (env.intersection tri' ray).1 = true →
            (env.intersection tri ray).2 < (env.intersection tri' ray).2) := by
  intro geos
  induction geos with
  | nil => intro i0 st; simp [scanGeometries]
  | cons geo rest ih =>
    intro i0 st
    obtain ⟨tA, tB, tC⟩ := scanTriangles_spec env ray i0 geo.2.getTriangles 0 st
    obtain ⟨hA, hB, hC⟩ := ih (i0 + 1) (scanTriangles env ray i0 geo.2.getTriangles 0 st)
    simp only [scanGeometries]
    refine ⟨le_trans hA tA, ?_, ?_⟩
    · intro a geo' k tri hgeo hk hhit
      cases a with
      | zero =>
        simp at hgeo
        subst hgeo
        exact le_trans hA (tB k tri hk hhit)
      | succ a => exact hB a geo' k tri (by simpa using hgeo) hk hhit
    · rcases hC with hC | ⟨a, geo', k, tri, hgeo, hk, hhit, hst, hlt, hfirst⟩
      · rcases tC with tC | ⟨k, tri, hk, hhit, hst, hlt, hfirst⟩
        · exact Or.inl (hC.trans tC)
        · refine Or.inr ⟨0, geo, k, tri, by simp, hk, hhit, ?_, hlt, ?_⟩
          · rw [hC, hst]; simp
          · intro a' geo' k' tri' hlex hgeo' hk' hhit'
            rcases hlex with h | ⟨h, hkk⟩
            · omega
            · subst h
              simp at hgeo'
              subst hgeo'
              exact hfirst k' tri' hkk hk' hhit'
      · refine Or.inr ⟨a + 1, geo', k, tri, by simpa using hgeo, hk, hhit, ?_,
          lt_of_lt_of_le hlt tA, ?_⟩
        · rw [hst]; congr 1; omega
        · intro a' geo'' k' tri' hlex hgeo' hk' hhit'
          cases a' with
          | zero =>
            simp at hgeo'
            subst hgeo'
            exact lt_of_lt_of_le hlt (tB k' tri' hk' hhit')
          | succ a' =>
            refine hfirst a' geo'' k' tri' ?_ (by simpa using hgeo') hk' hhit'
            rcases hlex with h | ⟨h, hkk⟩
            · exact Or.inl (by omega)
            · exact Or.inr ⟨by omega, hkk⟩

/-- The element access of the scene, split into its two steps. -/
theorem Scene.triangleAt_eq_some {s : Scene} {g j : Nat} {tri : Triangle} :
    s.triangleAt g j = some tri ↔
      ∃ geo, s.m_geometries[g]? = some geo ∧ geo.2.getTriangles[j]? = some tri := by
  unfold Scene.triangleAt
  cases s.m_geometries[g]? <;> simp

/-- C4, as amended: when the intersection test succeeds for at least one triangle at a
distance below `FLT_MAX` (the initial value of `profondeur_min`), `rayIntersection` returns
a triangle of the scene whose test succeeds, with the distance that test reports; this
distance is at most the distance of every triangle of every geometry whose test succeeds,
and every successful triangle at the same distance comes at or after the returned one in
scan order (geometry index, then triangle index). -/
theorem rayIntersection_nearest (env : Env) (s : Scene) (ray : Ray)
    (h : ∃ g j tri, s.triangleAt g j = some tri ∧ (env.intersection tri ray).1 = true ∧
      (env.intersection tri ray).2 < FLT_MAX) :
    ∃ g j tri, rayIntersection env s ray =
        Run.ok ⟨TrianglePtr.elem g j tri, ray, (env.intersection tri ray).2⟩ ∧
      s.triangleAt g j = some tri ∧ (env.intersection tri ray).1 = true ∧
      ∀ g' j' tri', s.triangleAt g' j' = some tri' → (env.intersection tri' ray).1 = true →
        (env.intersection tri ray).2 ≤ (env.intersection tri' ray).2 ∧
        ((env.intersection tri' ray).2 = (env.intersection tri ray).2 →
          g < g' ∨ (g = g' ∧ j ≤ j')) := by
  obtain ⟨g0, j0, tri0, hat0, hhit0, hlt0⟩ := h
  obtain ⟨geo0, hgeo0, hk0⟩ := Scene.triangleAt_eq_some.mp hat0
  obtain ⟨-, hB, hC⟩ := scanGeometries_spec env ray s.m_geometries 0 ⟨0, 0, FLT_MAX⟩
  rcases hC with hC | ⟨a, geo, k, tri, hgeo, hk, hhit, hst, -, hfirst⟩
  · have := hB g0 geo0 j0 tri0 hgeo0 hk0 hhit0
    rw [hC] at this
    exact absurd hlt0 (not_lt.mpr this)
  · have hat : s.triangleAt a k = some tri := Scene.triangleAt_eq_some.mpr ⟨geo, hgeo, hk⟩
    refine ⟨a, k, tri, ?_, hat, hhit, ?_⟩
    · simp only [rayIntersection, hst, Nat.zero_add, hat]
      rfl
    · intro g' j' tri' hat' hhit'
      obtain ⟨geo', hgeo', hk'⟩ := Scene.triangleAt_eq_some.mp hat'
      have hmin := hB g' geo' j' tri' hgeo' hk' hhit'
      rw [hst] at hmin
      refine ⟨hmin, fun heq => ?_⟩
      by_contra hcon
      have hlex : g' < a ∨ (g' = a ∧ j' < k) := by omega
      have := hfirst g' geo' j' tri' hlex hgeo' hk' hhit'
      rw [heq] at this
      exact lt_irrefl _ this

/-- C4, as stated, fails: in `farScene` the test of `farTriangle` succeeds for `rayUp`, at
distance `FLT_MAX`, and `rayIntersection` returns `behindTriangle`, whose test fails. -/
theorem rayIntersection_far_hit_ignored :
    farScene.triangleAt 0 1 = some farTriangle ∧
      demoEnv.intersection farTriangle rayUp = (true, FLT_MAX) ∧
      rayIntersection demoEnv farScene rayUp =
        Run.ok ⟨TrianglePtr.elem 0 0 behindTriangle, rayUp, -1⟩ ∧
      (demoEnv.intersection behindTriangle rayUp).1 = false := by
  refine ⟨rfl, ?_, ?_, ?_⟩
  · norm_num [demoEnv, mollerTrumbore, farTriangle, rayUp, Vector3.sub, Vector3.cross,
      Vector3.dot, FLT_MAX]
  · norm_num [rayIntersection, scanGeometries, scanTriangles, scanStep, demoEnv,
      farScene, Scene.triangleAt, RayTriangleIntersection.ofTriangle, mollerTrumbore,
      farTriangle, behindTriangle, rayUp, Vector3.sub, Vector3.cross, Vector3.dot, FLT_MAX]
  · norm_num [demoEnv, mollerTrumbore, behindTriangle, rayUp, Vector3.sub, Vector3.cross,
      Vector3.dot]

/-- Witness of C4 as amended: in `twoScene` the ray `rayUp` crosses `lampTriangle` at
distance 1, and `rayIntersection` returns it. -/
theorem rayIntersection_nearest_witness :
    ∃ g j tri, rayIntersection demoEnv twoScene rayUp =
        Run.ok ⟨TrianglePtr.elem g j tri, rayUp, (demoEnv.intersection tri rayUp).2⟩ ∧
      twoScene.triangleAt g j = some tri ∧ (demoEnv.intersection tri rayUp).1 = true ∧
      ∀ g' j' tri', twoScene.triangleAt g' j' = some tri' →
        (demoEnv.intersection tri' rayUp).1 = true →
        (demoEnv.intersection tri rayUp).2 ≤ (demoEnv.intersection tri' rayUp).2 ∧
        ((demoEnv.intersection tri' rayUp).2 = (demoEnv.intersection tri rayUp).2 →
          g < g' ∨ (g = g' ∧ j ≤ j')) :=
  rayIntersection_nearest demoEnv twoScene rayUp
    ⟨0, 1, lampTriangle, rfl, by
      norm_num [demoEnv, mollerTrumbore, lampTriangle, rayUp, Vector3.sub, Vector3.cross,
        Vector3.dot, FLT_MAX]⟩

/-! ## Instances of the theorems above on the concrete scenes -/

/-- Witness of C2: in `lampScene`, at `depth = maxDepth = 2`, the ray `rayUp` returns the
emissive colour of the triangle it crosses. -/
theorem sendRay_at_maxDepth_witness :
    ∃ g j tri, (⟨TrianglePtr.elem 0 0 lampTriangle, rayUp, 1⟩ : RayTriangleIntersection).triangle
        = TrianglePtr.elem g j tri ∧
      lampScene.triangleAt g j = some tri ∧
      sendRay demoEnv 1 rayUp 2 2 ⟨lampScene, 0⟩ =
        Run.ok (tri.material.emissiveColor, ⟨lampScene, 0⟩) :=
  sendRay_at_maxDepth demoEnv 0 rayUp 2 2 ⟨lampScene, 0⟩
    ⟨TrianglePtr.elem 0 0 lampTriangle, rayUp, 1⟩ rfl (by
      norm_num [rayIntersection, scanGeometries, scanTriangles, scanStep, demoEnv,
        lampScene, Scene.triangleAt, RayTriangleIntersection.ofTriangle, mollerTrumbore,
        lampTriangle, rayUp, Vector3.sub, Vector3.cross, Vector3.dot, FLT_MAX])

/-- Witness of C3: in `glassScene` the ray `rayUp` crosses the transparent triangle, and
`sendRay(rayUp, 0, 5)` is the nested call on the refraction ray with depth 0 and maximum
depth 2. -/
theorem sendRay_refractive_witness :
    sendRay demoEnv 4 rayUp 0 5 ⟨glassScene, 0⟩ =
      sendRay demoEnv 3
        (demoEnv.mkRay
          (⟨TrianglePtr.elem 0 0 glassTriangle, rayUp, 1⟩ : RayTriangleIntersection).intersection
          (demoEnv.refractionDirection glassTriangle rayUp)) 0 2 ⟨glassScene, 0⟩ :=
  (sendRay_refractive demoEnv 3 rayUp 0 5 ⟨glassScene, 0⟩
    ⟨TrianglePtr.elem 0 0 glassTriangle, rayUp, 1⟩ 0 0 glassTriangle (by decide) (by
      norm_num [rayIntersection, scanGeometries, scanTriangles, scanStep, demoEnv,
        glassScene, Scene.triangleAt, RayTriangleIntersection.ofTriangle, mollerTrumbore,
        glassTriangle, rayUp, Vector3.sub, Vector3.cross, Vector3.dot, FLT_MAX])
    rfl (by norm_num [glassTriangle, glass, Material.refractionIndex])).1

/-- Witness of C7 as amended: with the 300 rays `sendRay` asks for, on a hit of
`lampTriangle`, whose diffuse and specular coefficients are the zero colour, both
estimators return the zero colour without any fuel for `sendRay`. -/
theorem global_estimators_skip_witness :
    (300 : Int) ≠ 0 ∧
      global_diffuseColor demoEnv (sendRay demoEnv 0)
        ⟨TrianglePtr.elem 0 0 lampTriangle, rayUp, 1⟩ 300 0 2 ⟨lampScene, 0⟩ =
        Run.ok (RGBColor.black, ⟨lampScene, 0⟩) ∧
      global_specular_indirectColor demoEnv (sendRay demoEnv 0)
        ⟨TrianglePtr.elem 0 0 lampTriangle, rayUp, 1⟩ 300 0 2 ⟨lampScene, 0⟩ =
        Run.ok (RGBColor.black, ⟨lampScene, 0⟩) :=
  ⟨by decide,
    (global_estimators_skip demoEnv (sendRay demoEnv 0)
      ⟨TrianglePtr.elem 0 0 lampTriangle, rayUp, 1⟩ 0 0 lampTriangle 300 0 2 ⟨lampScene, 0⟩
      rfl (by decide)).1 rfl,
    (global_estimators_skip demoEnv (sendRay demoEnv 0)
      ⟨TrianglePtr.elem 0 0 lampTriangle, rayUp, 1⟩ 0 0 lampTriangle 300 0 2 ⟨lampScene, 0⟩
      rfl (by decide)).2 rfl⟩

/-! ## The diffuse estimator is the average of the specification -/

@[simp] theorem RGBColor.scale_one (a : RGBColor) : a.scale 1 = a := by
  simp [RGBColor.scale]

/-- Every list of samples the sampling loop returns has one colour per iteration. -/
theorem diffuseSamples_length (env : Env) (send : Sender) (hit : RayTriangleIntersection)
    (N : Vector3) (depth maxDepth : Int) :
    ∀ (n : Nat) (w : World) (ss : List RGBColor) (w' : World),
      diffuseSamples env send hit N depth maxDepth n w = Run.ok (ss, w') → ss.length = n := by
  intro n
  induction n with
  | zero =>
    intro w ss w' h
    simp [diffuseSamples] at h
    simp [h.1.symm]
  | succ n ih =>
    intro w ss w' h
    simp only [diffuseSamples] at h
    obtain ⟨res, -, h2⟩ := Run.bind_eq_ok.mp h
    obtain ⟨rest, h3, h4⟩ := Run.bind_eq_ok.mp h2
    have hl := ih res.2 rest.1 rest.2 h3
    simp at h4
    simp [h4.1.symm, hl]

/-- The loop of `global_diffuseColor` adds, to the value it starts from, the sum over the
samples of `Kd * s / d + E`. -/
theorem diffuseLoop_eq_sum (env : Env) (send : Sender) (hit : RayTriangleIntersection)
    (Kd : RGBColor) (d : ℚ) (E : RGBColor) (N : Vector3) (depth maxDepth : Int) :
    ∀ (n : Nat) (acc : RGBColor) (w : World),
      diffuseLoop env send hit Kd d E N depth maxDepth n acc w =
        (diffuseSamples env send hit N depth maxDepth n w).bind fun res =>
          Run.ok (acc + List.sum (res.1.map fun s => ((Kd.mul s).div d) + E), res.2) := by
  intro n
  induction n with
  | zero => intro acc w; simp [diffuseLoop, diffuseSamples]
  | succ n ih =>
    intro acc w
    simp only [diffuseLoop, diffuseSamples]
    cases hs : send (env.mkRay hit.intersection (env.generate N none w.seed).1) (depth + 1)
        maxDepth ⟨w.scene, (env.generate N none w.seed).2⟩ with
    | ok res =>
      simp only [Run.bind_ok, ih]
      cases hr : diffuseSamples env send hit N depth maxDepth n res.2 with
      | ok rest =>
        simp only [Run.bind_ok, List.map_cons, List.sum_cons, RGBColor.scale_one]
        rw [← RGBColor.add_def, ← RGBColor.add_def, add_assoc, add_assoc, add_assoc]
      | fault f => simp
      | outOfFuel => simp
    | fault f => simp
    | outOfFuel => simp

/-- On a hit whose diffuse coefficient is not the zero colour, and for a number of rays
other than 0, `global_diffuseColor` is the average of the specification over the samples,
for every callback. -/
theorem global_diffuseColor_eq_samples (env : Env) (send : Sender)
    (hit : RayTriangleIntersection) (g j : Nat) (tri : Triangle)
    (maxRays depth maxDepth : Int) (w : World)
    (htri : hit.triangle = TrianglePtr.elem g j tri)
    (hKd : tri.material.diffuseColor ≠ RGBColor.black) (hrays : maxRays ≠ 0) :
    global_diffuseColor env send hit maxRays depth maxDepth w =
      (diffuseSamples env send hit (facingNormal env tri hit.ray) depth
          maxDepth maxRays.toNat w).bind fun res =>
        Run.ok (averagedEstimate tri.material.diffuseColor hit.tRayValue
            tri.material.emissiveColor maxRays res.1,
          ⟨{ res.2.scene with count := res.2.scene.count + 1 }, res.2.seed⟩) := by
  simp only [global_diffuseColor, htri, TrianglePtr.deref, Run.bind_ok, emissiveColor, hKd,
    ne_eq, not_false_eq_true, if_true, diffuseLoop_eq_sum, facingNormal, averagedEstimate,
    scaleByInverse_of_ne _ hrays]
  cases diffuseSamples env send hit
      (if (hit.ray.direction.neg).dot (env.normal tri) < 0 then (env.normal tri).scale (-1)
        else env.normal tri) depth maxDepth maxRays.toNat w with
  | ok res =>
    simp only [Run.bind_ok]
    rw [← RGBColor.zero_def, zero_add]
  | fault f => simp
  | outOfFuel => simp

/-- C6: on a hit whose material has a non-zero diffuse coefficient `Kd`, with hit distance
`d` and emissive colour `E`, `global_diffuseColor(hit, maxRays, depth, maxDepth)` equals
`(1 / maxRays) * sum_i (Kd * s_i / d + E)`, where `s_1 .. s_maxRays` are the colours
`sendRay(Ray(hitPoint, dir_i), depth + 1, maxDepth)` of the sampled directions, `d` is the
distance of the original hit and the product of colours is per channel; the sum has one
term per sample.  At `maxRays = 0`, where the formula is `(1 / 0) * 0`, the code computes
`0 * (1.0f / 0)` and its result is not a finite colour either. -/
theorem global_diffuseColor_eq_average (env : Env) (fuel : Nat)
    (hit : RayTriangleIntersection) (g j : Nat) (tri : Triangle)
    (maxRays depth maxDepth : Int) (w : World)
    (htri : hit.triangle = TrianglePtr.elem g j tri)
    (hKd : tri.material.diffuseColor ≠ RGBColor.black) :
    (maxRays ≠ 0 →
        global_diffuseColor env (sendRay env fuel) hit maxRays depth maxDepth w =
          ((diffuseSamples env (sendRay env fuel) hit (facingNormal env tri hit.ray) depth
              maxDepth maxRays.toNat w).bind fun res =>
            Run.ok (averagedEstimate tri.material.diffuseColor hit.tRayValue
                tri.material.emissiveColor maxRays res.1,
              ⟨{ res.2.scene with count := res.2.scene.count + 1 }, res.2.seed⟩))) ∧
      (maxRays = 0 →
        global_diffuseColor env (sendRay env fuel) hit maxRays depth maxDepth w =
          Run.fault Fault.notFinite) ∧
      ∀ ss w', diffuseSamples env (sendRay env fuel) hit (facingNormal env tri hit.ray) depth
          maxDepth maxRays.toNat w = Run.ok (ss, w') → ss.length = maxRays.toNat :=
  ⟨fun hrays => global_diffuseColor_eq_samples env (sendRay env fuel) hit g j tri maxRays
      depth maxDepth w htri hKd hrays,
    fun hrays => by
      rw [hrays]
      exact global_diffuseColor_zero_rays env (sendRay env fuel) hit g j tri depth maxDepth w
        htri,
    fun _ _ h => diffuseSamples_length _ _ _ _ _ _ _ _ _ _ h⟩

/-- Witness of C6: in `glowScene`, on the hit of `rayUp` at distance 1, with two samples
that each return the emissive colour (1,0,0), the estimator is
`(1/2) * ((2 * 1 / 1 + 1) + (2 * 1 / 1 + 1)) = 3` in the red channel. -/
theorem global_diffuseColor_eq_average_witness :
    global_diffuseColor demoEnv (sendRay demoEnv 1)
        ⟨TrianglePtr.elem 0 0 glowTriangle, rayUp, 1⟩ 2 0 1 ⟨glowScene, 0⟩ =
      Run.ok (⟨3, 0, 0⟩, ⟨{ glowScene with count := 1 }, 2⟩) := by
  rw [(global_diffuseColor_eq_average demoEnv 1
    ⟨TrianglePtr.elem 0 0 glowTriangle, rayUp, 1⟩ 0 0 glowTriangle 2 0 1 ⟨glowScene, 0⟩ rfl
    (by simp [glowTriangle, glowPaint, Material.diffuseColor, RGBColor.black])).1
    (by decide)]
  norm_num [diffuseSamples, sendRay, rayIntersection, scanGeometries, scanTriangles, scanStep,
    demoEnv, glowScene, Scene.triangleAt, emissiveColor, TrianglePtr.deref,
    RayTriangleIntersection.ofTriangle, RayTriangleIntersection.intersection, mollerTrumbore,
    glowTriangle, glowPaint, rayUp, Vector3.sub, Vector3.cross, Vector3.dot, Vector3.add,
    Vector3.scale, Vector3.neg, FLT_MAX, Material.emissiveColor, Material.diffuseColor,
    facingNormal, averagedEstimate, RGBColor.mul, RGBColor.div, RGBColor.scale,
    RGBColor.add_def, RGBColor.add, RGBColor.zero_def, RGBColor.black]

/-! ## What a call leaves unchanged -/

theorem Scene.SameSetup.refl (s : Scene) : s.SameSetup s := ⟨rfl, rfl, rfl⟩

theorem Scene.SameSetup.trans {s s' s'' : Scene} (h : s.SameSetup s') (h' : s'.SameSetup s'') :
    s.SameSetup s'' :=
  ⟨h'.1.trans h.1, h'.2.1.trans h.2.1, h'.2.2.trans h.2.2⟩

/-- The loop of `global_diffuseColor` keeps the set-up of the scene when the callback does. -/
theorem diffuseLoop_frame (env : Env) (send : Sender) (hsend : Sender.Frames send)
    (hit : RayTriangleIntersection) (Kd : RGBColor) (d : ℚ) (E : RGBColor) (N : Vector3)
    (depth maxDepth : Int) :
    ∀ (n : Nat) (acc : RGBColor) (w : World) (c : RGBColor) (w' : World),
      diffuseLoop env send hit Kd d E N depth maxDepth n acc w = Run.ok (c, w') →
        w.scene.SameSetup w'.scene := by
  intro n
  induction n with
  | zero =>
    intro acc w c w' h
    simp [diffuseLoop] at h
    rw [← h.2]
    exact Scene.SameSetup.refl _
  | succ n ih =>
    intro acc w c w' h
    simp only [diffuseLoop] at h
    obtain ⟨res, h1, h2⟩ := Run.bind_eq_ok.mp h
    exact (hsend _ _ _ _ res.1 res.2 h1).trans (ih _ _ _ _ h2)

/-- The loop of `global_specular_indirectColor` keeps the set-up of the scene when the
callback does. -/
theorem specularLoop_frame (env : Env) (send : Sender) (hsend : Sender.Frames send)
    (hit : RayTriangleIntersection) (Ks : RGBColor) (d : ℚ) (E : RGBColor) (R : Vector3)
    (sh : ℚ) (depth maxDepth : Int) :
    ∀ (n : Nat) (acc : RGBColor) (w : World) (c : RGBColor) (w' : World),
      specularLoop env send hit Ks d E R sh depth maxDepth n acc w = Run.ok (c, w') →
        w.scene.SameSetup w'.scene := by
  intro n
  induction n with
  | zero =>
    intro acc w c w' h
    simp [specularLoop] at h
    rw [← h.2]
    exact Scene.SameSetup.refl _
  | succ n ih =>
    intro acc w c w' h
    simp only [specularLoop] at h
    obtain ⟨res, h1, h2⟩ := Run.bind_eq_ok.mp h
    exact (hsend _ _ _ _ res.1 res.2 h1).trans (ih _ _ _ _ h2)

/-- `global_diffuseColor` keeps the set-up of the scene when the callback does. -/
theorem global_diffuseColor_frame (env : Env) (send : Sender) (hsend : Sender.Frames send)
    (hit : RayTriangleIntersection) (maxRays depth maxDepth : Int) (w : World)
    (c : RGBColor) (w' : World)
    (h : global_diffuseColor env send hit maxRays depth maxDepth w = Run.ok (c, w')) :
    w.scene.SameSetup w'.scene := by
  simp only [global_diffuseColor] at h
  obtain ⟨tri, -, h⟩ := Run.bind_eq_ok.mp h
  obtain ⟨E, -, h⟩ := Run.bind_eq_ok.mp h
  by_cases hKd : tri.material.diffuseColor = RGBColor.black
  · rw [if_neg (not_not.mpr hKd)] at h
    obtain ⟨average, hscale, h⟩ := Run.bind_eq_ok.mp h
    obtain ⟨-, rfl⟩ := scaleByInverse_eq_ok hscale
    simp at h
    rw [← h.2]
    exact Scene.SameSetup.refl _
  · rw [if_pos hKd] at h
    obtain ⟨res, h1, h2⟩ := Run.bind_eq_ok.mp h
    have hf := diffuseLoop_frame env send hsend _ _ _ _ _ _ _ _ _ _ res.1 res.2 h1
    obtain ⟨average, hscale, h2⟩ := Run.bind_eq_ok.mp h2
    obtain ⟨-, rfl⟩ := scaleByInverse_eq_ok hscale
    simp at h2
    rw [← h2.2]
    exact hf

/-- `global_specular_indirectColor` keeps the set-up of the scene when the callback does. -/
theorem global_specular_indirectColor_frame (env : Env) (send : Sender)
    (hsend : Sender.Frames send) (hit : RayTriangleIntersection)
    (maxRays depth maxDepth : Int) (w : World) (c : RGBColor) (w' : World)
    (h : global_specular_indirectColor env send hit maxRays depth maxDepth w = Run.ok (c, w')) :
    w.scene.SameSetup w'.scene := by
  simp only [global_specular_indirectColor] at h
  obtain ⟨tri, -, h⟩ := Run.bind_eq_ok.mp h
  obtain ⟨E, -, h⟩ := Run.bind_eq_ok.mp h
  by_cases hKs : tri.material.specularColor = RGBColor.black
  · rw [if_neg (not_not.mpr hKs)] at h
    obtain ⟨average, hscale, h⟩ := Run.bind_eq_ok.mp h
    obtain ⟨-, rfl⟩ := scaleByInverse_eq_ok hscale
    simp at h
    rw [← h.2]
    exact Scene.SameSetup.refl _
  · rw [if_pos hKs] at h
    obtain ⟨res, h1, h2⟩ := Run.bind_eq_ok.mp h
    have hf := specularLoop_frame env send hsend _ _ _ _ _ _ _ _ _ _ _ res.1 res.2 h1
    obtain ⟨average, hscale, h2⟩ := Run.bind_eq_ok.mp h2
    obtain ⟨-, rfl⟩ := scaleByInverse_eq_ok hscale
    simp at h2
    rw [← h2.2]
    exact hf

/-- `sendRay` keeps the geometry, the lights and the camera of the scene. -/
theorem sendRay_frame (env : Env) : ∀ fuel : Nat, Sender.Frames (sendRay env fuel) := by
  intro fuel
  induction fuel with
  | zero => intro r d m w c w' h; simp [sendRay] at h
  | succ fuel ih =>
    intro r d m w c w' h
    simp only [sendRay] at h
    split_ifs at h with hd
    · obtain ⟨hit, -, h⟩ := Run.bind_eq_ok.mp h
      obtain ⟨e, -, h⟩ := Run.bind_eq_ok.mp h
      simp at h
      rw [← h.2]
      exact Scene.SameSetup.refl _
    · obtain ⟨hit, -, h⟩ := Run.bind_eq_ok.mp h
      obtain ⟨tri, -, h⟩ := Run.bind_eq_ok.mp h
      split_ifs at h with hr
      · obtain ⟨hit1, -, h⟩ := Run.bind_eq_ok.mp h
        simp only [refraction] at h
        obtain ⟨tri1, -, h⟩ := Run.bind_eq_ok.mp h
        exact ih _ _ _ _ _ _ h
      · obtain ⟨hit1, -, h⟩ := Run.bind_eq_ok.mp h
        obtain ⟨diffus, h1, h⟩ := Run.bind_eq_ok.mp h
        obtain ⟨hit2, -, h⟩ := Run.bind_eq_ok.mp h
        obtain ⟨spec, h2, h⟩ := Run.bind_eq_ok.mp h
        have f1 := global_diffuseColor_frame env _ ih _ _ _ _ _ diffus.1 diffus.2 h1
        have f2 := global_specular_indirectColor_frame env _ ih _ _ _ _ _ spec.1 spec.2 h2
        simp at h
        rw [← h.2]
        exact f1.trans f2

/-! ## Non-negative channels -/

theorem RGBColor.NonNeg.black : RGBColor.black.NonNeg := by
  simp [RGBColor.NonNeg, RGBColor.black]

theorem RGBColor.NonNeg.add {a c : RGBColor} (ha : a.NonNeg) (hc : c.NonNeg) :
    (a.add c).NonNeg :=
  ⟨add_nonneg ha.1 hc.1, add_nonneg ha.2.1 hc.2.1, add_nonneg ha.2.2 hc.2.2⟩

theorem RGBColor.NonNeg.mul {a c : RGBColor} (ha : a.NonNeg) (hc : c.NonNeg) :
    (a.mul c).NonNeg :=
  ⟨mul_nonneg ha.1 hc.1, mul_nonneg ha.2.1 hc.2.1, mul_nonneg ha.2.2 hc.2.2⟩

theorem RGBColor.NonNeg.scale {a : RGBColor} {k : ℚ} (ha : a.NonNeg) (hk : 0 ≤ k) :
    (a.scale k).NonNeg :=
  ⟨mul_nonneg ha.1 hk, mul_nonneg ha.2.1 hk, mul_nonneg ha.2.2 hk⟩

theorem RGBColor.NonNeg.div {a : RGBColor} {k : ℚ} (ha : a.NonNeg) (hk : 0 ≤ k) :
    (a.div k).NonNeg :=
  ⟨div_nonneg ha.1 hk, div_nonneg ha.2.1 hk, div_nonneg ha.2.2 hk⟩

/-- The element access reads the geometry collection only. -/
theorem Scene.triangleAt_congr {s s' : Scene} (g j : Nat)
    (h : s'.m_geometries = s.m_geometries) : s'.triangleAt g j = s.triangleAt g j := by
  simp [Scene.triangleAt, h]

/-- The loop of `global_diffuseColor` keeps the running value non-negative when the
coefficient, the distance, the emissive colour and every colour the callback returns are
non-negative. -/
theorem diffuseLoop_nonneg (env : Env) (send : Sender) (s : Scene)
    (hframe : Sender.Frames send)
    (hsend : ∀ r d m w c w', s.SameSetup w.scene → send r d m w = Run.ok (c, w') → c.NonNeg)
    (hit : RayTriangleIntersection) (Kd : RGBColor) (d : ℚ) (E : RGBColor) (N : Vector3)
    (depth maxDepth : Int) (hKd : Kd.NonNeg) (hd : 0 ≤ d) (hE : E.NonNeg) :
    ∀ (n : Nat) (acc : RGBColor) (w : World) (c : RGBColor) (w' : World),
      s.SameSetup w.scene → acc.NonNeg →
      diffuseLoop env send hit Kd d E N depth maxDepth n acc w = Run.ok (c, w') →
        c.NonNeg := by
  intro n
  induction n with
  | zero =>
    intro acc w c w' _ hacc h
    simp [diffuseLoop] at h
    rw [← h.1]
    exact hacc
  | succ n ih =>
    intro acc w c w' hw hacc h
    simp only [diffuseLoop] at h
    obtain ⟨res, h1, h2⟩ := Run.bind_eq_ok.mp h
    have hres : res.1.NonNeg :=
      hsend _ _ _ ⟨w.scene, (env.generate N none w.seed).2⟩ res.1 res.2 hw h1
    have hw2 : s.SameSetup res.2.scene :=
      hw.trans (hframe _ _ _ ⟨w.scene, (env.generate N none w.seed).2⟩ res.1 res.2 h1)
    refine ih _ _ _ _ hw2 ?_ h2
    exact ((hacc.add (((hKd.scale zero_le_one).mul hres).div hd)).add hE)

/-- The loop of `global_specular_indirectColor` keeps the running value non-negative under
the same conditions. -/
theorem specularLoop_nonneg (env : Env) (send : Sender) (s : Scene)
    (hframe : Sender.Frames send)
    (hsend : ∀ r d m w c w', s.SameSetup w.scene → send r d m w = Run.ok (c, w') → c.NonNeg)
    (hit : RayTriangleIntersection) (Ks : RGBColor) (d : ℚ) (E : RGBColor) (R : Vector3)
    (sh : ℚ) (depth maxDepth : Int) (hKs : Ks.NonNeg) (hd : 0 ≤ d) (hE : E.NonNeg) :
    ∀ (n : Nat) (acc : RGBColor) (w : World) (c : RGBColor) (w' : World),
      s.SameSetup w.scene → acc.NonNeg →
      specularLoop env send hit Ks d E R sh depth maxDepth n acc w = Run.ok (c, w') →
        c.NonNeg := by
  intro n
  induction n with
  | zero =>
    intro acc w c w' _ hacc h
    simp [specularLoop] at h
    rw [← h.1]
    exact hacc
  | succ n ih =>
    intro acc w c w' hw hacc h
    simp only [specularLoop] at h
    obtain ⟨res, h1, h2⟩ := Run.bind_eq_ok.mp h
    have hres : res.1.NonNeg :=
      hsend _ _ _ ⟨w.scene, (env.generate R (some sh) w.seed).2⟩ res.1 res.2 hw h1
    have hw2 : s.SameSetup res.2.scene :=
      hw.trans (hframe _ _ _ ⟨w.scene, (env.generate R (some sh) w.seed).2⟩ res.1 res.2 h1)
    refine ih _ _ _ _ hw2 ?_ h2
    exact ((hacc.add ((hKs.mul hres).div hd)).add hE)

/-- The factor `1.0f / maxRays` is non-negative once the loop has run at least once. -/
theorem one_div_maxRays_nonneg (maxRays : Int) (h : 0 < maxRays) :
    (0 : ℚ) ≤ 1 / (maxRays : ℚ) := by
  have : (0 : ℚ) < (maxRays : ℚ) := by exact_mod_cast h
  positivity

/-- `global_diffuseColor` is non-negative on a hit with a non-negative material and a
non-negative distance, when the callback only returns non-negative colours. -/
theorem global_diffuseColor_nonneg (env : Env) (send : Sender) (s : Scene)
    (hframe : Sender.Frames send)
    (hsend : ∀ r d m w c w', s.SameSetup w.scene → send r d m w = Run.ok (c, w') → c.NonNeg)
    (hit : RayTriangleIntersection) (g j : Nat) (tri : Triangle)
    (htri : hit.triangle = TrianglePtr.elem g j tri) (hmat : tri.material.NonNeg)
    (hd : 0 ≤ hit.tRayValue) (maxRays depth maxDepth : Int) (w : World) (c : RGBColor)
    (w' : World) (hw : s.SameSetup w.scene)
    (h : global_diffuseColor env send hit maxRays depth maxDepth w = Run.ok (c, w')) :
    c.NonNeg := by
  simp only [global_diffuseColor, htri, TrianglePtr.deref, Run.bind_ok, emissiveColor] at h
  by_cases hKd : tri.material.diffuseColor = RGBColor.black
  · rw [if_neg (not_not.mpr hKd)] at h
    obtain ⟨average, hscale, h⟩ := Run.bind_eq_ok.mp h
    obtain ⟨-, rfl⟩ := scaleByInverse_eq_ok hscale
    simp at h
    rw [← h.1]
    exact RGBColor.NonNeg.black
  · rw [if_pos hKd] at h
    obtain ⟨res, h1, h2⟩ := Run.bind_eq_ok.mp h
    obtain ⟨average, hscale, h2⟩ := Run.bind_eq_ok.mp h2
    obtain ⟨-, rfl⟩ := scaleByInverse_eq_ok hscale
    simp only [Run.ok.injEq, Prod.mk.injEq] at h2
    rw [← h2.1]
    rcases le_or_lt maxRays 0 with hn | hn
    · have h0 : maxRays.toNat = 0 := Int.toNat_eq_zero.mpr hn
      rw [h0] at h1
      simp [diffuseLoop] at h1
      rw [← h1]
      simp [RGBColor.NonNeg.black]
    · exact (diffuseLoop_nonneg env send s hframe hsend hit _ _ _ _ depth maxDepth hmat.1 hd
        hmat.2.2 _ _ _ _ _ hw RGBColor.NonNeg.black h1).scale (one_div_maxRays_nonneg _ hn)

/-- `global_specular_indirectColor` is non-negative under the same conditions. -/
theorem global_specular_indirectColor_nonneg (env : Env) (send : Sender) (s : Scene)
    (hframe : Sender.Frames send)
    (hsend : ∀ r d m w c w', s.SameSetup w.scene → send r d m w = Run.ok (c, w') → c.NonNeg)
    (hit : RayTriangleIntersection) (g j : Nat) (tri : Triangle)
    (htri : hit.triangle = TrianglePtr.elem g j tri) (hmat : tri.material.NonNeg)
    (hd : 0 ≤ hit.tRayValue) (maxRays depth maxDepth : Int) (w : World) (c : RGBColor)
    (w' : World) (hw : s.SameSetup w.scene)
    (h : global_specular_indirectColor env send hit maxRays depth maxDepth w =
      Run.ok (c, w')) :
    c.NonNeg := by
  simp only [global_specular_indirectColor, htri, TrianglePtr.deref, Run.bind_ok,
    emissiveColor] at h
  by_cases hKs : tri.material.specularColor = RGBColor.black
  · rw [if_neg (not_not.mpr hKs)] at h
    obtain ⟨average, hscale, h⟩ := Run.bind_eq_ok.mp h
    obtain ⟨-, rfl⟩ := scaleByInverse_eq_ok hscale
    simp at h
    rw [← h.1]
    exact RGBColor.NonNeg.black
  · rw [if_pos hKs] at h
    obtain ⟨res, h1, h2⟩ := Run.bind_eq_ok.mp h
    obtain ⟨average, hscale, h2⟩ := Run.bind_eq_ok.mp h2
    obtain ⟨-, rfl⟩ := scaleByInverse_eq_ok hscale
    simp only [Run.ok.injEq, Prod.mk.injEq] at h2
    rw [← h2.1]
    rcases le_or_lt maxRays 0 with hn | hn
    · have h0 : maxRays.toNat = 0 := Int.toNat_eq_zero.mpr hn
      rw [h0] at h1
      simp [specularLoop] at h1
      rw [← h1]
      simp [RGBColor.NonNeg.black]
    · exact (specularLoop_nonneg env send s hframe hsend hit _ _ _ _ _ depth maxDepth hmat.2.1
        hd hmat.2.2 _ _ _ _ _ hw RGBColor.NonNeg.black h1).scale (one_div_maxRays_nonneg _ hn)

/-- A record returned by `rayIntersection` on a scene with the set-up of `s` points at a
triangle of `s` and is a record `rayIntersection` returns on `s`. -/
theorem rayIntersection_sameSetup {env : Env} {s s' : Scene} {ray : Ray}
    {hit : RayTriangleIntersection} (hs : s.SameSetup s')
    (h : rayIntersection env s' ray = Run.ok hit) :
    rayIntersection env s ray = Run.ok hit ∧
      ∃ g j tri, s.triangleAt g j = some tri ∧ hit.triangle = TrianglePtr.elem g j tri := by
  rw [rayIntersection_congr env ray hs.1] at h
  obtain ⟨g, j, tri, hat, rfl⟩ := rayIntersection_eq_ok h
  exact ⟨h, g, j, tri, hat, rfl⟩

/-- The opaque case of `sendRay`: when `depth != maxDepth` and the triangle returned by
`rayIntersection(ray)` has refraction index 0, the result is the sum of the two estimators,
the diffuse one first. -/
theorem sendRay_diffuse_specular (env : Env) (fuel : Nat) (ray : Ray) (depth maxDepth : Int) (w : World)
    (hit : RayTriangleIntersection) (g j : Nat) (tri : Triangle) (hdepth : depth ≠ maxDepth)
    (hhit : rayIntersection env w.scene ray = Run.ok hit)
    (htri : hit.triangle = TrianglePtr.elem g j tri)
    (hrefr : tri.material.refractionIndex = 0) :
    sendRay env (fuel + 1) ray depth maxDepth w =
      (global_diffuseColor env (sendRay env fuel) hit 300 depth maxDepth w).bind fun diffus =>
        (rayIntersection env diffus.2.scene ray).bind fun hit2 =>
          (global_specular_indirectColor env (sendRay env fuel) hit2 300 depth maxDepth
              diffus.2).bind
            fun spec => Run.ok (diffus.1.add spec.1, spec.2) := by
  simp only [sendRay, hdepth, if_false, hhit, Run.bind_ok, htri, TrianglePtr.deref, hrefr,
    ne_eq, not_true_eq_false]

/-- With the sampler of `demoEnv` and a callback that returns the colour `c` and leaves the
world as it is, the `n` samples are `n` times `c` and the random state has stepped `n`
times. -/
theorem diffuseSamples_demoEnv_const (send : Sender) (hit : RayTriangleIntersection)
    (N : Vector3) (depth maxDepth : Int) (scene : Scene) (c : RGBColor)
    (h : ∀ r seed, send r (depth + 1) maxDepth ⟨scene, seed⟩ = Run.ok (c, ⟨scene, seed⟩)) :
    ∀ (n seed : Nat), diffuseSamples demoEnv send hit N depth maxDepth n ⟨scene, seed⟩ =
      Run.ok (List.replicate n c, ⟨scene, seed + n⟩) := by
  intro n
  induction n with
  | zero => intro seed; simp [diffuseSamples]
  | succ n ih =>
    intro seed
    simp only [diffuseSamples, demoEnv, h, Run.bind_ok]
    have := ih (seed + 1)
    simp only [demoEnv] at this
    rw [this]
    simp [List.replicate_succ, Nat.add_assoc, Nat.add_comm 1 n]

theorem RGBColor.nsmul_def (n : Nat) (a : RGBColor) : n • a = a.scale n := rfl

/-- In a scene with a single triangle, `sendRay` at `depth == maxDepth` returns the emissive
colour of that triangle for every ray. -/
theorem sendRay_glowBehindScene_terminal (r : Ray) (cnt : Int) (seed : Nat) :
    sendRay demoEnv 1 r (0 + 1) 1 ⟨{ glowBehindScene with count := cnt }, seed⟩ =
      Run.ok (⟨1, 0, 0⟩, ⟨{ glowBehindScene with count := cnt }, seed⟩) := by
  simp only [sendRay, zero_add, if_true, rayIntersection, scanGeometries, scanTriangles,
    scanStep, glowBehindScene]
  split_ifs <;>
    simp [Scene.triangleAt, emissiveColor, TrianglePtr.deref,
      RayTriangleIntersection.ofTriangle, glowBehindTriangle, glowPaint,
      Material.emissiveColor]

/-- C8: the materials of `glowBehindScene` have non-negative channels, and for the ray
`rayUp`, at depth 0 with maximum depth 1, `global_diffuseColor` and `sendRay` return the
colour (-1,0,0), where the specification wants no negative channel.  The ray crosses no
triangle; `rayIntersection`, which has no miss case, falls back on the first triangle of
the scene, whose test left the distance -1, and the estimator divides by it. -/
theorem sendRay_negative_channel :
    (∀ g j tri, glowBehindScene.triangleAt g j = some tri → tri.material = glowPaint) ∧
      glowPaint.NonNeg ∧
      rayIntersection demoEnv glowBehindScene rayUp =
        Run.ok ⟨TrianglePtr.elem 0 0 glowBehindTriangle, rayUp, -1⟩ ∧
      global_diffuseColor demoEnv (sendRay demoEnv 1)
          ⟨TrianglePtr.elem 0 0 glowBehindTriangle, rayUp, -1⟩ 300 0 1 ⟨glowBehindScene, 0⟩ =
        Run.ok (⟨-1, 0, 0⟩, ⟨{ glowBehindScene with count := 1 }, 300⟩) ∧
      sendRay demoEnv 2 rayUp 0 1 ⟨glowBehindScene, 0⟩ =
        Run.ok (⟨-1, 0, 0⟩, ⟨{ glowBehindScene with count := 1 }, 300⟩) ∧
      ¬ RGBColor.NonNeg ⟨-1, 0, 0⟩ := by
  have hri : ∀ cnt : Int, rayIntersection demoEnv { glowBehindScene with count := cnt } rayUp =
      Run.ok ⟨TrianglePtr.elem 0 0 glowBehindTriangle, rayUp, -1⟩ := by
    intro cnt
    norm_num [rayIntersection, scanGeometries, scanTriangles, scanStep, demoEnv,
      glowBehindScene, Scene.triangleAt, RayTriangleIntersection.ofTriangle, mollerTrumbore,
      glowBehindTriangle, rayUp, Vector3.sub, Vector3.cross, Vector3.dot, FLT_MAX]
  have hdiff : global_diffuseColor demoEnv (sendRay demoEnv 1)
      ⟨TrianglePtr.elem 0 0 glowBehindTriangle, rayUp, -1⟩ 300 0 1 ⟨glowBehindScene, 0⟩ =
      Run.ok (⟨-1, 0, 0⟩, ⟨{ glowBehindScene with count := 1 }, 300⟩) := by
    rw [global_diffuseColor_eq_samples demoEnv (sendRay demoEnv 1)
      ⟨TrianglePtr.elem 0 0 glowBehindTriangle, rayUp, -1⟩ 0 0 glowBehindTriangle 300 0 1
      ⟨glowBehindScene, 0⟩ rfl
      (by simp [glowBehindTriangle, glowPaint, Material.diffuseColor, RGBColor.black])
      (by decide)]
    rw [show (300 : Int).toNat = 300 from rfl,
      diffuseSamples_demoEnv_const (sendRay demoEnv 1) _ _ 0 1 glowBehindScene ⟨1, 0, 0⟩
        (fun r seed => sendRay_glowBehindScene_terminal r 0 seed) 300 0]
    simp only [Run.bind_ok, averagedEstimate, List.map_replicate, List.sum_replicate,
      RGBColor.nsmul_def]
    norm_num [glowBehindTriangle, glowPaint, Material.diffuseColor, Material.emissiveColor,
      RGBColor.mul, RGBColor.div, RGBColor.scale, RGBColor.add_def, RGBColor.add,
      glowBehindScene]
  refine ⟨?_, ?_, hri 0, hdiff, ?_, ?_⟩
  · intro g j tri h
    rcases g with _ | g
    · rcases j with _ | j
      · simp [Scene.triangleAt, glowBehindScene] at h
        rw [← h]
        rfl
      · simp [Scene.triangleAt, glowBehindScene] at h
    · simp [Scene.triangleAt, glowBehindScene] at h
  · norm_num [Material.NonNeg, RGBColor.NonNeg, glowPaint, Material.diffuseColor,
      Material.specularColor, Material.emissiveColor]
  · have h1 := hri 1
    rw [sendRay_diffuse_specular demoEnv 1 rayUp 0 1 ⟨glowBehindScene, 0⟩ _ 0 0 glowBehindTriangle
      (by decide) (hri 0) rfl rfl, hdiff]
    simp only [Run.bind_ok, h1]
    simp [global_specular_indirectColor, TrianglePtr.deref, emissiveColor,
      glowBehindTriangle, glowPaint, Material.specularColor,
      RGBColor.black, RGBColor.add, RGBColor.scale]
  · norm_num [RGBColor.NonNeg]

/-! ## Termination without refraction -/

theorem Run.terminates_ok {α : Type} (a : α) : (Run.ok a).Terminates := by
  simp [Run.Terminates]

theorem Run.returns_ok {α : Type} (a : α) : (Run.ok a).Returns := ⟨a, rfl⟩

/-- A sequence terminates when its first part does and its second part does on every value
of the first. -/
theorem Run.terminates_bind {α β : Type} (m : Run α) (k : α → Run β) (hm : m.Terminates)
    (hk : ∀ a, m = Run.ok a → (k a).Terminates) : (m.bind k).Terminates := by
  cases m with
  | ok a => exact hk a rfl
  | fault f => simp [Run.Terminates]
  | outOfFuel => exact absurd rfl hm

/-- A sequence returns when its first part does and its second part does on the value of
the first. -/
theorem Run.returns_bind {α β : Type} (m : Run α) (k : α → Run β) (hm : m.Returns)
    (hk : ∀ a, m = Run.ok a → (k a).Returns) : (m.bind k).Returns := by
  obtain ⟨a, rfl⟩ := hm
  exact hk a rfl

/-- The query never exhausts the fuel: its two loops are bounded by the collections. -/
theorem rayIntersection_terminates (env : Env) (s : Scene) (ray : Ray) :
    (rayIntersection env s ray).Terminates := by
  simp only [rayIntersection, Run.Terminates]
  split <;> simp

section Progress

variable (Good : ∀ {α : Type}, Run α → Prop)
variable (good_ok : ∀ {α : Type} (a : α), Good (Run.ok a))
variable (good_bind : ∀ {α β : Type} (m : Run α) (k : α → Run β), Good m →
  (∀ a, m = Run.ok a → Good (k a)) → Good (m.bind k))

include good_ok good_bind

/-- The loop of `global_diffuseColor` makes progress (terminates, or returns) when every
call of the callback at `depth + 1` does. -/
theorem diffuseLoop_good (env : Env) (send : Sender) (s : Scene)
    (hframe : Sender.Frames send) (depth maxDepth : Int)
    (hsend : ∀ r w, s.SameSetup w.scene → Good (send r (depth + 1) maxDepth w))
    (hit : RayTriangleIntersection) (Kd : RGBColor) (d : ℚ) (E : RGBColor) (N : Vector3) :
    ∀ (n : Nat) (acc : RGBColor) (w : World), s.SameSetup w.scene →
      Good (diffuseLoop env send hit Kd d E N depth maxDepth n acc w) := by
  intro n
  induction n with
  | zero => intro acc w _; exact good_ok _
  | succ n ih =>
    intro acc w hw
    simp only [diffuseLoop]
    refine good_bind _ _ (hsend _ ⟨w.scene, (env.generate N none w.seed).2⟩ hw) ?_
    intro res hres
    exact ih _ _ (hw.trans
      (hframe _ _ _ ⟨w.scene, (env.generate N none w.seed).2⟩ res.1 res.2 hres))

/-- The loop of `global_specular_indirectColor` makes progress when every call of the
callback at `depth + 1` does. -/
theorem specularLoop_good (env : Env) (send : Sender) (s : Scene)
    (hframe : Sender.Frames send) (depth maxDepth : Int)
    (hsend : ∀ r w, s.SameSetup w.scene → Good (send r (depth + 1) maxDepth w))
    (hit : RayTriangleIntersection) (Ks : RGBColor) (d : ℚ) (E : RGBColor) (R : Vector3)
    (sh : ℚ) :
    ∀ (n : Nat) (acc : RGBColor) (w : World), s.SameSetup w.scene →
      Good (specularLoop env send hit Ks d E R sh depth maxDepth n acc w) := by
  intro n
  induction n with
  | zero => intro acc w _; exact good_ok _
  | succ n ih =>
    intro acc w hw
    simp only [specularLoop]
    refine good_bind _ _ (hsend _ ⟨w.scene, (env.generate R (some sh) w.seed).2⟩ hw) ?_
    intro res hres
    exact ih _ _ (hw.trans
      (hframe _ _ _ ⟨w.scene, (env.generate R (some sh) w.seed).2⟩ res.1 res.2 hres))

/-- `global_diffuseColor` makes progress on a record that refers to a triangle, for a number
of rays other than 0. -/
theorem global_diffuseColor_good (env : Env) (send : Sender) (s : Scene)
    (hframe : Sender.Frames send) (depth maxDepth : Int)
    (hsend : ∀ r w, s.SameSetup w.scene → Good (send r (depth + 1) maxDepth w))
    (hit : RayTriangleIntersection) (g j : Nat) (tri : Triangle)
    (htri : hit.triangle = TrianglePtr.elem g j tri) (maxRays : Int) (hrays : maxRays ≠ 0)
    (w : World)
    (hw : s.SameSetup w.scene) :
    Good (global_diffuseColor env send hit maxRays depth maxDepth w) := by
  simp only [global_diffuseColor, htri, TrianglePtr.deref, Run.bind_ok, emissiveColor,
    scaleByInverse_of_ne _ hrays]
  by_cases hKd : tri.material.diffuseColor = RGBColor.black
  · rw [if_neg (not_not.mpr hKd)]
    exact good_ok _
  · rw [if_pos hKd]
    refine good_bind _ _ ?_ (fun _ _ => good_ok _)
    exact diffuseLoop_good Good good_ok good_bind env send s hframe depth maxDepth hsend hit
      _ _ _ _ _ _ _ hw

/-- `global_specular_indirectColor` makes progress on a record that refers to a triangle,
for a number of rays other than 0. -/
theorem global_specular_indirectColor_good (env : Env) (send : Sender) (s : Scene)
    (hframe : Sender.Frames send) (depth maxDepth : Int)
    (hsend : ∀ r w, s.SameSetup w.scene → Good (send r (depth + 1) maxDepth w))
    (hit : RayTriangleIntersection) (g j : Nat) (tri : Triangle)
    (htri : hit.triangle = TrianglePtr.elem g j tri) (maxRays : Int) (hrays : maxRays ≠ 0)
    (w : World)
    (hw : s.SameSetup w.scene) :
    Good (global_specular_indirectColor env send hit maxRays depth maxDepth w) := by
  simp only [global_specular_indirectColor, htri, TrianglePtr.deref, Run.bind_ok,
    emissiveColor,
    scaleByInverse_of_ne _ hrays]
  by_cases hKs : tri.material.specularColor = RGBColor.black
  · rw [if_neg (not_not.mpr hKs)]
    exact good_ok _
  · rw [if_pos hKs]
    refine good_bind _ _ ?_ (fun _ _ => good_ok _)
    exact specularLoop_good Good good_ok good_bind env send s hframe depth maxDepth hsend hit
      _ _ _ _ _ _ _ _ hw

/-- On a scene without refraction `sendRay` makes progress as soon as the fuel exceeds
`maxDepth - depth`, provided the query does. -/
theorem sendRay_good (env : Env) (s : Scene) (hnorefr : s.NoRefraction)
    (hquery : ∀ (ray : Ray) (w : World), s.SameSetup w.scene →
      Good (rayIntersection env w.scene ray)) :
    ∀ (fuel : Nat) (ray : Ray) (depth maxDepth : Int) (w : World), s.SameSetup w.scene →
      depth ≤ maxDepth → maxDepth - depth < fuel →
      Good (sendRay env fuel ray depth maxDepth w) := by
  intro fuel
  induction fuel with
  | zero => intro ray depth maxDepth w _ hle hlt; exact absurd hlt (by push_cast; omega)
  | succ fuel ih =>
    intro ray depth maxDepth w hw hle hlt
    simp only [sendRay]
    split_ifs with hd
    · refine good_bind _ _ (hquery ray w hw) ?_
      intro hit hhit
      obtain ⟨g, j, tri, -, rfl⟩ := rayIntersection_eq_ok hhit
      simp only [emissiveColor, RayTriangleIntersection.ofTriangle, TrianglePtr.deref,
        Run.bind_ok]
      exact good_ok _
    · have hnext : ∀ r w', s.SameSetup w'.scene →
          Good (sendRay env fuel r (depth + 1) maxDepth w') := by
        intro r w' hw'
        refine ih r (depth + 1) maxDepth w' hw' ?_ ?_
        · omega
        · push_cast at hlt ⊢; omega
      refine good_bind _ _ (hquery ray w hw) ?_
      intro hit hhit
      obtain ⟨hhit', g, j, tri, hat, htri⟩ := rayIntersection_sameSetup hw hhit
      simp only [htri, TrianglePtr.deref, Run.bind_ok, hnorefr g j tri hat, ne_eq,
        not_true_eq_false, if_false, hhit]
      refine good_bind _ _ ?_ ?_
      · exact global_diffuseColor_good Good good_ok good_bind env _ s (sendRay_frame env fuel)
          depth maxDepth hnext hit g j tri htri _ (by decide) w hw
      · intro diffus hdiffus
        have hw1 : s.SameSetup diffus.2.scene :=
          hw.trans (global_diffuseColor_frame env _ (sendRay_frame env fuel) _ _ _ _ _
            diffus.1 diffus.2 hdiffus)
        refine good_bind _ _ (hquery ray diffus.2 hw1) ?_
        intro hit2 hhit2
        obtain ⟨-, g2, j2, tri2, -, htri2⟩ := rayIntersection_sameSetup hw1 hhit2
        refine good_bind _ _ ?_ (fun _ _ => good_ok _)
        exact global_specular_indirectColor_good Good good_ok good_bind env _ s
          (sendRay_frame env fuel) depth maxDepth hnext hit2 g2 j2 tri2 htri2 _
          (by decide) diffus.2 hw1

end Progress

/-! ## More fuel does not change a result -/

theorem sendRay_succ (env : Env) (fuel : Nat) :
    sendRay env (fuel + 1) = sendRayBody env (sendRay env fuel) := by
  funext ray depth maxDepth w
  simp only [sendRay, sendRayBody]

/-- A sequence that does not exhaust the fuel has a first part that does not either. -/
theorem Run.bind_ne_outOfFuel {α β : Type} {m : Run α} {k : α → Run β}
    (h : m.bind k ≠ Run.outOfFuel) : m ≠ Run.outOfFuel := by
  intro hm
  rw [hm] at h
  exact h rfl

/-- Two sequences agree when the first parts agree and the second parts agree wherever the
reference one does not exhaust the fuel. -/
theorem Run.bind_extends {α β : Type} {m m' : Run α} {k k' : α → Run β}
    (h : m.bind k ≠ Run.outOfFuel) (hm : m ≠ Run.outOfFuel → m' = m)
    (hk : ∀ a, m = Run.ok a → k a ≠ Run.outOfFuel → k' a = k a) :
    m'.bind k' = m.bind k := by
  rw [hm (Run.bind_ne_outOfFuel h)]
  cases m with
  | ok a => exact hk a rfl h
  | fault f => rfl
  | outOfFuel => rfl

theorem diffuseLoop_extends (env : Env) (send send' : Sender) (hext : Sender.Extends send send')
    (hit : RayTriangleIntersection) (Kd : RGBColor) (d : ℚ) (E : RGBColor) (N : Vector3)
    (depth maxDepth : Int) :
    ∀ (n : Nat) (acc : RGBColor) (w : World),
      diffuseLoop env send hit Kd d E N depth maxDepth n acc w ≠ Run.outOfFuel →
      diffuseLoop env send' hit Kd d E N depth maxDepth n acc w =
        diffuseLoop env send hit Kd d E N depth maxDepth n acc w := by
  intro n
  induction n with
  | zero => intro acc w _; rfl
  | succ n ih =>
    intro acc w h
    simp only [diffuseLoop] at h ⊢
    exact Run.bind_extends h (hext _ _ _ _) (fun res _ hk => ih _ _ hk)

theorem specularLoop_extends (env : Env) (send send' : Sender)
    (hext : Sender.Extends send send') (hit : RayTriangleIntersection) (Ks : RGBColor) (d : ℚ)
    (E : RGBColor) (R : Vector3) (sh : ℚ) (depth maxDepth : Int) :
    ∀ (n : Nat) (acc : RGBColor) (w : World),
      specularLoop env send hit Ks d E R sh depth maxDepth n acc w ≠ Run.outOfFuel →
      specularLoop env send' hit Ks d E R sh depth maxDepth n acc w =
        specularLoop env send hit Ks d E R sh depth maxDepth n acc w := by
  intro n
  induction n with
  | zero => intro acc w _; rfl
  | succ n ih =>
    intro acc w h
    simp only [specularLoop] at h ⊢
    exact Run.bind_extends h (hext _ _ _ _) (fun res _ hk => ih _ _ hk)

theorem global_diffuseColor_extends (env : Env) (send send' : Sender)
    (hext : Sender.Extends send send') (hit : RayTriangleIntersection)
    (maxRays depth maxDepth : Int) (w : World)
    (h : global_diffuseColor env send hit maxRays depth maxDepth w ≠ Run.outOfFuel) :
    global_diffuseColor env send' hit maxRays depth maxDepth w =
      global_diffuseColor env send hit maxRays depth maxDepth w := by
  simp only [global_diffuseColor] at h ⊢
  refine Run.bind_extends h (fun _ => rfl) (fun tri _ h => ?_)
  refine Run.bind_extends h (fun _ => rfl) (fun E _ h => ?_)
  by_cases hKd : tri.material.diffuseColor = RGBColor.black
  · rw [if_neg (not_not.mpr hKd)]
    rw [if_neg (not_not.mpr hKd)]
  · rw [if_pos hKd] at h ⊢
    rw [if_pos hKd]
    exact Run.bind_extends h
      (diffuseLoop_extends env send send' hext _ _ _ _ _ _ _ _ _ _) (fun _ _ _ => rfl)

theorem global_specular_indirectColor_extends (env : Env) (send send' : Sender)
    (hext : Sender.Extends send send') (hit : RayTriangleIntersection)
    (maxRays depth maxDepth : Int) (w : World)
    (h : global_specular_indirectColor env send hit maxRays depth maxDepth w ≠
      Run.outOfFuel) :
    global_specular_indirectColor env send' hit maxRays depth maxDepth w =
      global_specular_indirectColor env send hit maxRays depth maxDepth w := by
  simp only [global_specular_indirectColor] at h ⊢
  refine Run.bind_extends h (fun _ => rfl) (fun tri _ h => ?_)
  refine Run.bind_extends h (fun _ => rfl) (fun E _ h => ?_)
  by_cases hKs : tri.material.specularColor = RGBColor.black
  · rw [if_neg (not_not.mpr hKs)]
    rw [if_neg (not_not.mpr hKs)]
  · rw [if_pos hKs] at h ⊢
    rw [if_pos hKs]
    exact Run.bind_extends h
      (specularLoop_extends env send send' hext _ _ _ _ _ _ _ _ _ _ _) (fun _ _ _ => rfl)

/-- The body of `sendRay` goes at least as far with a callback that goes at least as far. -/
theorem sendRayBody_extends (env : Env) (send send' : Sender)
    (hext : Sender.Extends send send') :
    Sender.Extends (sendRayBody env send) (sendRayBody env send') := by
  intro ray depth maxDepth w h
  simp only [sendRayBody] at h ⊢
  by_cases hd : depth = maxDepth
  · rw [if_pos hd]
    rw [if_pos hd]
  · rw [if_neg hd] at h ⊢
    rw [if_neg hd]
    refine Run.bind_extends h (fun _ => rfl) (fun hit _ h => ?_)
    refine Run.bind_extends h (fun _ => rfl) (fun tri _ h => ?_)
    by_cases hr : tri.material.refractionIndex = 0
    · rw [if_neg (not_not.mpr hr)] at h ⊢
      rw [if_neg (not_not.mpr hr)]
      refine Run.bind_extends h (fun _ => rfl) (fun hit1 _ h => ?_)
      refine Run.bind_extends h
        (global_diffuseColor_extends env send send' hext _ _ _ _ _) (fun diffus _ h => ?_)
      refine Run.bind_extends h (fun _ => rfl) (fun hit2 _ h => ?_)
      exact Run.bind_extends h
        (global_specular_indirectColor_extends env send send' hext _ _ _ _ _)
        (fun _ _ _ => rfl)
    · rw [if_pos hr] at h ⊢
      rw [if_pos hr]
      refine Run.bind_extends h (fun _ => rfl) (fun hit1 _ h => ?_)
      simp only [refraction] at h ⊢
      exact Run.bind_extends h (fun _ => rfl) (fun tri1 _ h => hext _ _ _ _ h)

/-- One more unit of fuel keeps every result that did not exhaust the fuel. -/
theorem sendRay_extends_succ (env : Env) :
    ∀ fuel : Nat, Sender.Extends (sendRay env fuel) (sendRay env (fuel + 1)) := by
  intro fuel
  induction fuel with
  | zero => intro r d m w h; exact absurd rfl h
  | succ fuel ih =>
    rw [sendRay_succ env (fuel + 1), sendRay_succ env fuel]
    exact sendRayBody_extends env _ _ ih

/-- More fuel keeps every result that did not exhaust the fuel. -/
theorem sendRay_extends (env : Env) (fuel fuel' : Nat) (hle : fuel ≤ fuel') :
    Sender.Extends (sendRay env fuel) (sendRay env fuel') := by
  induction fuel' with
  | zero =>
    have : fuel = 0 := by omega
    subst this
    intro r d m w _
    rfl
  | succ fuel' ih =>
    rcases Nat.eq_or_lt_of_le hle with heq | hlt
    · subst heq
      intro r d m w _
      rfl
    · intro r d m w h
      have h1 := ih (by omega) r d m w h
      have h2 := sendRay_extends_succ env fuel' r d m w (by rw [h1]; exact h)
      rw [h2, h1]

/-! ## The nested calls of the opaque case -/

/-- The loop of `global_diffuseColor` only calls the callback with `depth + 1` and
`maxDepth`. -/
theorem diffuseLoop_congr (env : Env) (send send' : Sender) (depth maxDepth : Int)
    (h : ∀ r w, send' r (depth + 1) maxDepth w = send r (depth + 1) maxDepth w)
    (hit : RayTriangleIntersection) (Kd : RGBColor) (d : ℚ) (E : RGBColor) (N : Vector3) :
    ∀ (n : Nat) (acc : RGBColor) (w : World),
      diffuseLoop env send' hit Kd d E N depth maxDepth n acc w =
        diffuseLoop env send hit Kd d E N depth maxDepth n acc w := by
  intro n
  induction n with
  | zero => intro acc w; rfl
  | succ n ih =>
    intro acc w
    simp only [diffuseLoop, h, ih]

/-- The loop of `global_specular_indirectColor` only calls the callback with `depth + 1`
and `maxDepth`. -/
theorem specularLoop_congr (env : Env) (send send' : Sender) (depth maxDepth : Int)
    (h : ∀ r w, send' r (depth + 1) maxDepth w = send r (depth + 1) maxDepth w)
    (hit : RayTriangleIntersection) (Ks : RGBColor) (d : ℚ) (E : RGBColor) (R : Vector3)
    (sh : ℚ) :
    ∀ (n : Nat) (acc : RGBColor) (w : World),
      specularLoop env send' hit Ks d E R sh depth maxDepth n acc w =
        specularLoop env send hit Ks d E R sh depth maxDepth n acc w := by
  intro n
  induction n with
  | zero => intro acc w; rfl
  | succ n ih =>
    intro acc w
    simp only [specularLoop, h, ih]

/-- `global_diffuseColor` only calls the callback with `depth + 1` and `maxDepth`. -/
theorem global_diffuseColor_congr (env : Env) (send send' : Sender) (depth maxDepth : Int)
    (h : ∀ r w, send' r (depth + 1) maxDepth w = send r (depth + 1) maxDepth w)
    (hit : RayTriangleIntersection) (maxRays : Int) (w : World) :
    global_diffuseColor env send' hit maxRays depth maxDepth w =
      global_diffuseColor env send hit maxRays depth maxDepth w := by
  unfold global_diffuseColor
  simp only [diffuseLoop_congr env send send' depth maxDepth h]

/-- `global_specular_indirectColor` only calls the callback with `depth + 1` and
`maxDepth`. -/
theorem global_specular_indirectColor_congr (env : Env) (send send' : Sender)
    (depth maxDepth : Int)
    (h : ∀ r w, send' r (depth + 1) maxDepth w = send r (depth + 1) maxDepth w)
    (hit : RayTriangleIntersection) (maxRays : Int) (w : World) :
    global_specular_indirectColor env send' hit maxRays depth maxDepth w =
      global_specular_indirectColor env send hit maxRays depth maxDepth w := by
  unfold global_specular_indirectColor
  simp only [specularLoop_congr env send send' depth maxDepth h]

/-- Two sequences with the same first part agree when their second parts agree on the
value of the first. -/
theorem Run.bind_congr_right {α β : Type} (m : Run α) (k k' : α → Run β)
    (h : ∀ a, m = Run.ok a → k' a = k a) : m.bind k' = m.bind k := by
  cases m with
  | ok a => exact h a rfl
  | fault f => exact Eq.refl (Run.fault f)
  | outOfFuel => exact Eq.refl Run.outOfFuel

/-- On a scene without refraction, the body of `sendRay` only calls the callback with
`depth + 1` and `maxDepth`: the results of the callback on other arguments are not used. -/
theorem sendRayBody_congr_noRefraction (env : Env) (send send' : Sender) (ray : Ray)
    (depth maxDepth : Int) (w : World) (hnorefr : w.scene.NoRefraction)
    (h : ∀ r w', send' r (depth + 1) maxDepth w' = send r (depth + 1) maxDepth w') :
    sendRayBody env send' ray depth maxDepth w = sendRayBody env send ray depth maxDepth w := by
  unfold sendRayBody
  by_cases hd : depth = maxDepth
  · simp only [if_pos hd]
  · simp only [if_neg hd]
    refine Run.bind_congr_right _ _ _ (fun hit hhit => ?_)
    obtain ⟨-, g, j, tri, hat, htri⟩ :=
      rayIntersection_sameSetup (Scene.SameSetup.refl _) hhit
    have hr : ¬ tri.material.refractionIndex ≠ 0 := not_not.mpr (hnorefr g j tri hat)
    simp only [htri, TrianglePtr.deref, Run.bind_ok, if_neg hr]
    refine Run.bind_congr_right _ _ _ (fun hit1 _ => ?_)
    rw [global_diffuseColor_congr env send send' depth maxDepth h]
    refine Run.bind_congr_right _ _ _ (fun diffus _ => ?_)
    refine Run.bind_congr_right _ _ _ (fun hit2 _ => ?_)
    rw [global_specular_indirectColor_congr env send send' depth maxDepth h]

/-- C10: on a scene in which no material has a non-zero refraction index, for
`depth <= maxDepth`, `sendRay(ray, depth, maxDepth)` terminates with a chain of at most
`maxDepth - depth + 1` nested `sendRay` calls: that much fuel is not exhausted, and more
fuel gives the same outcome.  Every nested call is made with `depth + 1` and the same
`maxDepth`: what the callback does on other arguments is not used.  When moreover
`rayIntersection` returns a record for every ray, as it does when every ray hits a
triangle, the outcome is a colour. -/
theorem sendRay_terminates_noRefraction (env : Env) (ray : Ray) (depth maxDepth : Int) (w : World)
    (hnorefr : w.scene.NoRefraction) (hle : depth ≤ maxDepth) :
    (sendRay env (maxDepth - depth + 1).toNat ray depth maxDepth w).Terminates ∧
      (∀ fuel : Nat, (maxDepth - depth + 1).toNat ≤ fuel →
        sendRay env fuel ray depth maxDepth w =
          sendRay env (maxDepth - depth + 1).toNat ray depth maxDepth w) ∧
      (∀ fuel : Nat, sendRay env (fuel + 1) ray depth maxDepth w =
        sendRayBody env
          (fun r d m w' =>
            if d = depth + 1 ∧ m = maxDepth then sendRay env fuel r d m w' else Run.outOfFuel)
          ray depth maxDepth w) ∧
      ((∀ ray', (rayIntersection env w.scene ray').Returns) →
        (sendRay env (maxDepth - depth + 1).toNat ray depth maxDepth w).Returns) := by
  have hfuel : maxDepth - depth < (((maxDepth - depth + 1).toNat : Nat) : Int) := by
    rw [Int.toNat_of_nonneg (by omega)]
    omega
  have hterm : (sendRay env (maxDepth - depth + 1).toNat ray depth maxDepth w).Terminates :=
    sendRay_good (fun m => Run.Terminates m) Run.terminates_ok Run.terminates_bind env w.scene
      hnorefr (fun r w' _ => rayIntersection_terminates env w'.scene r) _ ray depth maxDepth w
      (Scene.SameSetup.refl _) hle hfuel
  refine ⟨hterm, ?_, ?_, ?_⟩
  · intro fuel hfuel'
    exact sendRay_extends env _ fuel hfuel' ray depth maxDepth w hterm
  · intro fuel
    rw [sendRay_succ]
    refine (sendRayBody_congr_noRefraction env _ _ ray depth maxDepth w hnorefr ?_).symm
    intro r w'
    simp
  · intro hhits
    refine sendRay_good (fun m => Run.Returns m) Run.returns_ok Run.returns_bind env w.scene
      hnorefr ?_ _ ray depth maxDepth w (Scene.SameSetup.refl _) hle hfuel
    intro r w' hw'
    rw [rayIntersection_congr env r hw'.1]
    exact hhits r

/-- The scene `glowScene` has no refractive material. -/
theorem glowScene_noRefraction : glowScene.NoRefraction := by
  intro g j tri h
  rcases g with _ | g
  · rcases j with _ | j
    · simp [Scene.triangleAt, glowScene] at h
      rw [← h]
      rfl
    · simp [Scene.triangleAt, glowScene] at h
  · simp [Scene.triangleAt, glowScene] at h

/-- Witness of C10: in `glowScene`, whose triangle is diffuse and not refractive,
`sendRay(rayUp, 0, 2)` terminates with three units of fuel. -/
theorem sendRay_terminates_noRefraction_witness :
    (sendRay demoEnv ((2 : Int) - 0 + 1).toNat rayUp 0 2 ⟨glowScene, 0⟩).Terminates :=
  (sendRay_terminates_noRefraction demoEnv rayUp 0 2 ⟨glowScene, 0⟩ glowScene_noRefraction
    (by decide)).1

/-! ## Surfaces that neither scatter nor refract -/

/-- On the hit of a surface that neither refracts nor scatters, the two estimators are
skipped and `sendRay` returns the zero colour when `depth != maxDepth`. -/
theorem sendRay_black_surface_aux (env : Env) (fuel : Nat) (ray : Ray) (depth maxDepth : Int)
    (w : World) (hit : RayTriangleIntersection) (g j : Nat) (tri : Triangle)
    (hhit : rayIntersection env w.scene ray = Run.ok hit)
    (htri : hit.triangle = TrianglePtr.elem g j tri)
    (hrefr : tri.material.refractionIndex = 0)
    (hKd : tri.material.diffuseColor = RGBColor.black)
    (hKs : tri.material.specularColor = RGBColor.black) (hd : depth ≠ maxDepth) :
    sendRay env (fuel + 1) ray depth maxDepth w = Run.ok (RGBColor.black, w) := by
  rw [sendRay_diffuse_specular env fuel ray depth maxDepth w hit g j tri hd hhit htri hrefr]
  have h1 : global_diffuseColor env (sendRay env fuel) hit 300 depth maxDepth w =
      Run.ok (RGBColor.black, w) := by
    simp [global_diffuseColor, htri, TrianglePtr.deref, emissiveColor, hKd]
  have h2 : global_specular_indirectColor env (sendRay env fuel) hit 300 depth maxDepth w =
      Run.ok (RGBColor.black, w) := by
    simp [global_specular_indirectColor, htri, TrianglePtr.deref, emissiveColor, hKs]
  simp only [h1, Run.bind_ok, hhit, h2]
  simp [RGBColor.add, RGBColor.black]

/-- C14: on the hit of a surface with refraction index 0 whose diffuse and specular
coefficients are both the zero colour, `sendRay` returns the zero colour for every
`depth != maxDepth`, whatever the emissive colour of the surface is, and leaves the world
unchanged; the emissive colour is returned when `depth == maxDepth`. -/
theorem sendRay_black_surface (env : Env) (fuel : Nat) (ray : Ray) (depth maxDepth : Int)
    (w : World) (hit : RayTriangleIntersection) (g j : Nat) (tri : Triangle)
    (hhit : rayIntersection env w.scene ray = Run.ok hit)
    (htri : hit.triangle = TrianglePtr.elem g j tri)
    (hrefr : tri.material.refractionIndex = 0)
    (hKd : tri.material.diffuseColor = RGBColor.black)
    (hKs : tri.material.specularColor = RGBColor.black) :
    (depth ≠ maxDepth →
        sendRay env (fuel + 1) ray depth maxDepth w = Run.ok (RGBColor.black, w)) ∧
      (depth = maxDepth →
        sendRay env (fuel + 1) ray depth maxDepth w =
          Run.ok (tri.material.emissiveColor, w)) := by
  constructor
  · exact sendRay_black_surface_aux env fuel ray depth maxDepth w hit g j tri hhit htri hrefr
      hKd hKs
  · intro hd
    simp [sendRay, hd, hhit, emissiveColor, htri, TrianglePtr.deref]

/-- Witness of C14: `lampTriangle` emits (1,0,0) and has zero diffuse and specular
coefficients; hit by `rayUp` at depth 0 with maximum depth 2, `sendRay` returns the zero
colour. -/
theorem sendRay_black_surface_witness :
    sendRay demoEnv 1 rayUp 0 2 ⟨lampScene, 0⟩ = Run.ok (RGBColor.black, ⟨lampScene, 0⟩) :=
  (sendRay_black_surface demoEnv 0 rayUp 0 2 ⟨lampScene, 0⟩
    ⟨TrianglePtr.elem 0 0 lampTriangle, rayUp, 1⟩ 0 0 lampTriangle (by
      norm_num [rayIntersection, scanGeometries, scanTriangles, scanStep, demoEnv,
        lampScene, Scene.triangleAt, RayTriangleIntersection.ofTriangle, mollerTrumbore,
        lampTriangle, rayUp, Vector3.sub, Vector3.cross, Vector3.dot, FLT_MAX])
    rfl rfl rfl rfl).1 (by decide)

/-! ## Where the emissive colour is added -/

/-- Adding `E` to every term of a sum adds `E` times the number of terms. -/
theorem sum_map_add_const (f : RGBColor → RGBColor) (E : RGBColor) :
    ∀ l : List RGBColor,
      List.sum (l.map fun s => f s + E) = List.sum (l.map f) + E.scale (l.length : ℚ) := by
  intro l
  rw [List.sum_map_add, List.map_const', List.sum_replicate, RGBColor.nsmul_def]

/-- With one sample per ray and at least one ray, the average with the emissive colour in
every term is the average of the scattered part plus the emissive colour. -/
theorem averagedEstimate_eq_emissionOutside (K : RGBColor) (d : ℚ) (E : RGBColor)
    (maxRays : Int) (samples : List RGBColor) (hpos : 1 ≤ maxRays)
    (hlen : samples.length = maxRays.toNat) :
    averagedEstimate K d E maxRays samples = emissionOutsideEstimate K d E maxRays samples := by
  have hn : ((samples.length : ℚ)) = (maxRays : ℚ) := by
    rw [hlen]
    have : ((maxRays.toNat : Int) : ℚ) = (maxRays : ℚ) := by
      rw [Int.toNat_of_nonneg (by omega)]
    exact_mod_cast this
  have hne : (maxRays : ℚ) ≠ 0 := by
    have : (0 : ℚ) < (maxRays : ℚ) := by exact_mod_cast (by omega : 0 < maxRays)
    exact ne_of_gt this
  unfold averagedEstimate emissionOutsideEstimate
  rw [sum_map_add_const (fun s => (K.mul s).div d) E samples, hn]
  simp only [RGBColor.add_def, RGBColor.add, RGBColor.scale, RGBColor.mk.injEq]
  refine ⟨?_, ?_, ?_⟩ <;> field_simp

/-- C13, as amended: for `maxRays >= 1` (in exact arithmetic), adding `E` once per sample
inside the loop of `global_diffuseColor` and dividing the sum by `maxRays` weights the
emission exactly once: on a hit with a non-zero diffuse coefficient the result is the
variant that averages the scattered part and adds `E` once after the division, for every
`maxRays >= 1` and not only for `maxRays == 1`. -/
theorem global_diffuseColor_eq_emissionOutside (env : Env) (fuel : Nat)
    (hit : RayTriangleIntersection) (g j : Nat) (tri : Triangle)
    (maxRays depth maxDepth : Int) (w : World)
    (htri : hit.triangle = TrianglePtr.elem g j tri)
    (hKd : tri.material.diffuseColor ≠ RGBColor.black) (hpos : 1 ≤ maxRays) :
    global_diffuseColor env (sendRay env fuel) hit maxRays depth maxDepth w =
      (diffuseSamples env (sendRay env fuel) hit (facingNormal env tri hit.ray) depth
          maxDepth maxRays.toNat w).bind fun res =>
        Run.ok (emissionOutsideEstimate tri.material.diffuseColor hit.tRayValue
            tri.material.emissiveColor maxRays res.1,
          ⟨{ res.2.scene with count := res.2.scene.count + 1 }, res.2.seed⟩) := by
  rw [global_diffuseColor_eq_samples env (sendRay env fuel) hit g j tri maxRays depth
    maxDepth w htri hKd (by omega)]
  refine Run.bind_congr_right _ _ _ (fun res hres => ?_)
  rw [averagedEstimate_eq_emissionOutside _ _ _ _ _ hpos
    (diffuseSamples_length _ _ _ _ _ _ _ _ res.1 res.2 hres)]

/-- The two samples of the diffuse estimator on the hit of `rayUp` in `glowScene`. -/
theorem diffuseSamples_glowScene :
    diffuseSamples demoEnv (sendRay demoEnv 1) ⟨TrianglePtr.elem 0 0 glowTriangle, rayUp, 1⟩
        (facingNormal demoEnv glowTriangle rayUp) 0 1 2 ⟨glowScene, 0⟩ =
      Run.ok ([⟨1, 0, 0⟩, ⟨1, 0, 0⟩], ⟨glowScene, 2⟩) := by
  norm_num [diffuseSamples, sendRay, rayIntersection, scanGeometries, scanTriangles, scanStep,
    demoEnv, glowScene, Scene.triangleAt, emissiveColor, TrianglePtr.deref,
    RayTriangleIntersection.ofTriangle, RayTriangleIntersection.intersection, mollerTrumbore,
    glowTriangle, glowPaint, rayUp, Vector3.sub, Vector3.cross, Vector3.dot, Vector3.add,
    Vector3.scale, Vector3.neg, FLT_MAX, Material.emissiveColor, facingNormal]

/-- C13, as stated, fails: with `maxRays = 2 > 1`, the diffuse coefficient (2,0,0) and the
emissive colour (1,0,0), `global_diffuseColor` returns (3,0,0) on two samples (1,0,0): the
scattered part averages to (2,0,0), so the emissive part is (1,0,0), the whole of `E`, and
the variant that adds `E` once after averaging returns the same colour (3,0,0). -/
theorem emission_not_underweighted :
    glowTriangle.material.diffuseColor ≠ RGBColor.black ∧
      glowTriangle.material.emissiveColor = ⟨1, 0, 0⟩ ∧
      global_diffuseColor demoEnv (sendRay demoEnv 1)
          ⟨TrianglePtr.elem 0 0 glowTriangle, rayUp, 1⟩ 2 0 1 ⟨glowScene, 0⟩ =
        Run.ok (⟨3, 0, 0⟩, ⟨{ glowScene with count := 1 }, 2⟩) ∧
      averagedEstimate glowTriangle.material.diffuseColor 1 RGBColor.black 2
          [⟨1, 0, 0⟩, ⟨1, 0, 0⟩] = ⟨2, 0, 0⟩ ∧
      emissionOutsideEstimate glowTriangle.material.diffuseColor 1
          glowTriangle.material.emissiveColor 2 [⟨1, 0, 0⟩, ⟨1, 0, 0⟩] = ⟨3, 0, 0⟩ := by
  refine ⟨?_, rfl, ?_, ?_, ?_⟩
  · simp [glowTriangle, glowPaint, Material.diffuseColor, RGBColor.black]
  · rw [global_diffuseColor_eq_samples demoEnv (sendRay demoEnv 1)
      ⟨TrianglePtr.elem 0 0 glowTriangle, rayUp, 1⟩ 0 0 glowTriangle 2 0 1 ⟨glowScene, 0⟩ rfl
      (by simp [glowTriangle, glowPaint, Material.diffuseColor, RGBColor.black])
      (by decide)]
    rw [show (2 : Int).toNat = 2 from rfl, diffuseSamples_glowScene]
    norm_num [averagedEstimate, glowTriangle, glowPaint, Material.diffuseColor,
      Material.emissiveColor, RGBColor.mul, RGBColor.div, RGBColor.scale, RGBColor.add_def,
      RGBColor.add, RGBColor.zero_def, RGBColor.black, glowScene]
  · norm_num [averagedEstimate, glowTriangle, glowPaint, Material.diffuseColor,
      RGBColor.mul, RGBColor.div, RGBColor.scale, RGBColor.add_def,
      RGBColor.add, RGBColor.zero_def, RGBColor.black]
  · norm_num [emissionOutsideEstimate, glowTriangle, glowPaint, Material.diffuseColor,
      Material.emissiveColor, RGBColor.mul, RGBColor.div, RGBColor.scale, RGBColor.add_def,
      RGBColor.add, RGBColor.zero_def, RGBColor.black]

/-- Witness of C13 as amended: on the hit of `rayUp` in `glowScene`, with three rays, the
estimator is the average of the scattered part plus the emissive colour. -/
theorem global_diffuseColor_eq_emissionOutside_witness :
    global_diffuseColor demoEnv (sendRay demoEnv 1)
        ⟨TrianglePtr.elem 0 0 glowTriangle, rayUp, 1⟩ 3 0 1 ⟨glowScene, 0⟩ =
      (diffuseSamples demoEnv (sendRay demoEnv 1)
          ⟨TrianglePtr.elem 0 0 glowTriangle, rayUp, 1⟩
          (facingNormal demoEnv glowTriangle rayUp) 0 1 (3 : Int).toNat ⟨glowScene, 0⟩).bind
        fun res =>
          Run.ok (emissionOutsideEstimate glowTriangle.material.diffuseColor 1
              glowTriangle.material.emissiveColor 3 res.1,
            ⟨{ res.2.scene with count := res.2.scene.count + 1 }, res.2.seed⟩) :=
  global_diffuseColor_eq_emissionOutside demoEnv 1
    ⟨TrianglePtr.elem 0 0 glowTriangle, rayUp, 1⟩ 0 0 glowTriangle 3 0 1 ⟨glowScene, 0⟩ rfl
    (by simp [glowTriangle, glowPaint, Material.diffuseColor, RGBColor.black]) (by decide)

/-! ## Refraction restarts the depth budget -/

theorem allocPixelTable_shape (width : Nat) : TableShape (allocPixelTable width) width := by
  constructor
  · simp [allocPixelTable]
  · intro row hrow
    simp only [allocPixelTable] at hrow
    rw [List.eq_of_mem_replicate hrow]
    simp

/-- In a table of `width` rows of `width` entries, `pixelTable[x][y]` is in range exactly
when both indices are below `width`. -/
theorem pixelAt_isSome_iff (table : List (List (Int × RGBColor))) (width : Nat)
    (hshape : TableShape table width) (x y : Nat) :
    (pixelAt table x y).isSome = true ↔ x < width ∧ y < width := by
  unfold pixelAt
  by_cases hx : x < table.length
  · have hrow : table[x]? = some table[x] := List.getElem?_eq_getElem hx
    have hlen : (table[x]).length = width := hshape.2 _ (List.getElem_mem hx)
    rw [hrow]
    simp only
    by_cases hy : y < (table[x]).length
    · rw [List.getElem?_eq_getElem hy]
      simp only [Option.isSome_some, true_iff]
      exact ⟨by rw [← hshape.1]; exact hx, by rw [← hlen]; exact hy⟩
    · rw [List.getElem?_eq_none (by omega)]
      simp only [Option.isSome_none, Bool.false_eq_true, false_iff, not_and]
      intro _
      omega
  · rw [List.getElem?_eq_none (by omega)]
    simp only [Option.isSome_none, Bool.false_eq_true, false_iff, not_and]
    intro h
    rw [← hshape.1] at h
    omega

/-- The shape of the table after one entry of one row has been replaced. -/
theorem TableShape.set {table : List (List (Int × RGBColor))} {width : Nat}
    (hshape : TableShape table width) (x y : Nat) (row : List (Int × RGBColor))
    (hrow : table[x]? = some row) (v : Int × RGBColor) :
    TableShape (table.set x (row.set y v)) width := by
  constructor
  · rw [List.length_set]
    exact hshape.1
  · intro r hr
    rcases List.mem_or_eq_of_mem_set hr with h | h
    · exact hshape.2 r h
    · rw [h, List.length_set]
      exact hshape.2 row (List.getElem?_mem hrow)

/-- The body of the pixel loop keeps the shape of the table. -/
theorem renderPixel_shape (env : Env) (fuel : Nat) (maxDepth : Int) (xp yp : ℚ) (y : Nat)
    (width : Nat) (st : RenderState) (x : Nat) (st' : RenderState)
    (hshape : TableShape st.pixelTable width)
    (h : renderPixel env fuel maxDepth xp yp y st x = Run.ok st') :
    TableShape st'.pixelTable width := by
  simp only [renderPixel] at h
  obtain ⟨res, -, h⟩ := Run.bind_eq_ok.mp h
  split at h
  · exact absurd h (by simp)
  · next row hrow =>
    split at h
    · exact absurd h (by simp)
    · next cur hcur =>
      simp only [Run.ok.injEq] at h
      rw [← h]
      exact hshape.set x y row hrow _

/-- C15, as amended: the table is allocated with `width` rows of `width` entries and every
iteration of the pixel loop keeps this shape; in such a table every access
`pixelTable[x][y]` of the pixel loop (`x < width`, `y < height`) is within bounds if and
only if `height <= width` or `width = 0` (no access is made when the width is zero). -/
theorem pixelTable_access_in_bounds (width height : Nat) :
    TableShape (allocPixelTable width) width ∧
      (∀ (env : Env) (fuel : Nat) (maxDepth : Int) (xp yp : ℚ) (y : Nat) (st : RenderState)
          (x : Nat) (st' : RenderState), TableShape st.pixelTable width →
          renderPixel env fuel maxDepth xp yp y st x = Run.ok st' →
          TableShape st'.pixelTable width) ∧
      ∀ table : List (List (Int × RGBColor)), TableShape table width →
        ((∀ x y : Nat, x < width → y < height → (pixelAt table x y).isSome = true) ↔
          (height ≤ width ∨ width = 0)) := by
  refine ⟨allocPixelTable_shape width, ?_, ?_⟩
  · intro env fuel maxDepth xp yp y st x st' hshape h
    exact renderPixel_shape env fuel maxDepth xp yp y width st x st' hshape h
  · intro table hshape
    constructor
    · intro h
      by_contra hcon
      have hw : 0 < width := by omega
      have hlt : width < height := by omega
      have := (pixelAt_isSome_iff table width hshape 0 width).mp (h 0 width hw hlt)
      omega
    · intro h x y hx hy
      exact (pixelAt_isSome_iff table width hshape x y).mpr ⟨hx, by omega⟩

/-- C15, as stated, fails for a rendering target of width 0 and height 1: the pixel loop
makes no access, so every access is within bounds, and yet the height is not at most the
width. -/
theorem pixelTable_zero_width :
    (∀ x y : Nat, x < 0 → y < 1 → (pixelAt (allocPixelTable 0) x y).isSome = true) ∧
      ¬ (1 ≤ 0) := by
  refine ⟨fun x y hx _ => absurd hx (Nat.not_lt_zero x), by decide⟩

/-! ## What rendering writes in the scene -/

section Keeps

variable (R : Scene → Scene → Prop)
variable (R_refl : ∀ s, R s s)
variable (R_trans : ∀ s s' s'', R s s' → R s' s'' → R s s'')
variable (R_count : ∀ s : Scene, R s { s with count := s.count + 1 })

include R_refl R_trans

include R_count

end Keeps

theorem PassInvariant.congr {env : Env} {fuel : Nat} {maxDepth : Int} {s0 : Scene} {W H : Nat}
    {xp yp : ℚ} {visited visited' : Nat → Nat → Prop} {st : RenderState}
    (h : PassInvariant env fuel maxDepth s0 W H xp yp visited st)
    (hiff : ∀ x y, visited' x y ↔ visited x y) :
    PassInvariant env fuel maxDepth s0 W H xp yp visited' st :=
  ⟨h.1, h.2.1, h.2.2.1, fun x y hv => h.2.2.2.1 x y ((hiff x y).mp hv),
    fun x y hv => h.2.2.2.2 x y (fun hv' => hv ((hiff x y).mpr hv'))⟩

end RayCasting
